import Mathlib

/-!
# Verification of the slack-betting-bot core logic

Shallow embedding of the repository's core logic:
* `src/database/schema.js`   — the SQLite-backed store, modelled as a pure
  record of lists (`DB`) with the same query/update operations;
* `src/services/bettingService.js` — `calculatePayouts`, `processPayouts`,
  `placeBet`, `generateEmojis`;
* `src/handlers/slackHandlers.js` — the command / reaction handlers
  (`handleResolveLine`, `handleLockLine`, `handleReactionAdded`,
  `handleReactionRemoved`), with the Slack-transport concerns (message
  fetching, rendering, ephemeral replies) abstracted to the handler's
  decision outcome.

Modelling conventions:
* JavaScript numbers holding the INTEGER columns (`balance`, `total_bets`,
  `total_winnings`, `amount`) are modelled as `Int`.
* uuid v4 identifiers are modelled as fresh strings derived from counters
  held in the `DB` record; only freshness matters to the logic.
* Each `await`ed database mutation persists immediately; a JavaScript
  `throw` aborts the rest of the function but does NOT roll back earlier
  mutations.  Operations that can throw therefore return `DB × Except
  String α`, carrying the state as mutated so far alongside the error.
* Timestamp columns (`created_at`, `locked_at`, `resolved_at`) and the
  Slack rendering fields (`slack_message_ts`, `slack_channel_id`) are
  external-collaborator concerns and carry no logic; they are omitted.
-/

deriving instance DecidableEq for Except

namespace Betting

/-- Line status column: `status TEXT DEFAULT 'open'` with the three values
`'open'`, `'locked'`, `'resolved'` ever written by the code. -/
inductive LineStatus where
  | open
  | locked
  | resolved
deriving DecidableEq, Repr

/-- A row of the `users` table. -/
structure Member where
  id : String
  slack_user_id : String
  username : String
  balance : Int
  total_bets : Int
  total_winnings : Int
deriving DecidableEq, Repr

/-- A row of the `betting_lines` table (timestamps and Slack rendering
fields omitted, see module header). -/
structure Line where
  id : String
  question : String
  options : List String
  emojis : List String
  status : LineStatus
  winner_option : Option String
deriving DecidableEq, Repr

/-- A row of the `bets` table. -/
structure Bet where
  id : String
  user_id : String
  line_id : String
  option : String
  amount : Int
deriving DecidableEq, Repr

/-- The closed enumeration of the stat fields actually passed to
`incrementUserStats` (the JS interpolates the field name into the SQL;
only `'total_bets'` and `'total_winnings'` occur at call sites). -/
inductive StatField where
  | total_bets
  | total_winnings
deriving DecidableEq, Repr

/-- The whole persistent store.  The `next*` counters model uuid
generation: a fresh id is derived from the counter, which is then
bumped. -/
structure DB where
  users : List Member
  lines : List Line
  bets : List Bet
  nextUserId : Nat
  nextLineId : Nat
  nextBetId : Nat
deriving DecidableEq, Repr

namespace DB

/-- `SELECT * FROM users WHERE slack_user_id = ?` (`getUserBySlackId`). -/
def getUserBySlackId (db : DB) (slackUserId : String) : Option Member :=
  db.users.find? (fun u => u.slack_user_id == slackUserId)

/-- `SELECT * FROM users WHERE id = ?` (`getUserStats`). -/
def getUserStats (db : DB) (userId : String) : Option Member :=
  db.users.find? (fun u => u.id == userId)

/-- `INSERT INTO users (id, slack_user_id, username)` — the remaining
columns take their schema defaults (`balance` 20, stats 0). -/
def createUser (db : DB) (slackUserId username : String) : DB × Member :=
  let m : Member :=
    { id := "user-" ++ toString db.nextUserId
      slack_user_id := slackUserId
      username := username
      balance := 20
      total_bets := 0
      total_winnings := 0 }
  ({ db with users := db.users ++ [m], nextUserId := db.nextUserId + 1 }, m)

/-- `UPDATE users SET balance = ? WHERE id = ?`. -/
def updateUserBalance (db : DB) (userId : String) (newBalance : Int) : DB :=
  { db with
    users := db.users.map (fun u =>
      if u.id == userId then { u with balance := newBalance } else u) }

/-- `UPDATE users SET ${field} = ${field} + ? WHERE id = ?`. -/
def incrementUserStats (db : DB) (userId : String) (field : StatField)
    (amount : Int) : DB :=
  { db with
    users := db.users.map (fun u =>
      if u.id == userId then
        match field with
        | .total_bets => { u with total_bets := u.total_bets + amount }
        | .total_winnings => { u with total_winnings := u.total_winnings + amount }
      else u) }

/-- `SELECT * FROM betting_lines WHERE id = ?` (`getBettingLine`). -/
def getBettingLine (db : DB) (lineId : String) : Option Line :=
  db.lines.find? (fun l => l.id == lineId)

/-- `INSERT INTO betting_lines ...` (`createBettingLine`); `status` takes
its schema default `'open'`. -/
def createBettingLine (db : DB) (question : String)
    (options emojis : List String) : DB × Line :=
  let l : Line :=
    { id := "line-" ++ toString db.nextLineId
      question := question
      options := options
      emojis := emojis
      status := .open
      winner_option := none }
  ({ db with lines := db.lines ++ [l], nextLineId := db.nextLineId + 1 }, l)

/-- `updateBettingLineStatus` restricted to the columns with logic: the
status itself and, when resolving, `winner_option`. -/
def updateLineStatus (db : DB) (lineId : String) (status : LineStatus)
    (winner : Option String) : DB :=
  { db with
    lines := db.lines.map (fun l =>
      if l.id == lineId then
        { l with status := status
                 winner_option := winner.orElse (fun _ => l.winner_option) }
      else l) }

/-- `INSERT INTO bets (id, user_id, line_id, option)`; `amount` takes its
schema default 1.  (The JS resolves an object without the `amount` field;
the row inserted carries amount 1, which is what we return.) -/
def insertBet (db : DB) (userId lineId option : String) : DB × Bet :=
  let b : Bet :=
    { id := "bet-" ++ toString db.nextBetId
      user_id := userId
      line_id := lineId
      option := option
      amount := 1 }
  ({ db with bets := db.bets ++ [b], nextBetId := db.nextBetId + 1 }, b)

/-- `SELECT * FROM bets WHERE user_id = ? AND line_id = ?` via `db.get`,
which yields the first matching row in insertion order. -/
def getUserBetOnLine (db : DB) (userId lineId : String) : Option Bet :=
  db.bets.find? (fun b => b.user_id == userId && b.line_id == lineId)

/-- `DELETE FROM bets WHERE id = ?`. -/
def deleteBet (db : DB) (betId : String) : DB :=
  { db with bets := db.bets.filter (fun b => b.id != betId) }

end DB

/-- A row of the `getBetsForLine` join:
`SELECT b.*, u.username FROM bets b JOIN users u ON b.user_id = u.id
 WHERE b.line_id = ?`. -/
structure BetRow where
  id : String
  user_id : String
  line_id : String
  option : String
  amount : Int
  username : String
deriving DecidableEq, Repr

/-- `getBetsForLine`: the inner join drops bets whose user row is
missing. -/
def DB.getBetsForLine (db : DB) (lineId : String) : List BetRow :=
  (db.bets.filter (fun b => b.line_id == lineId)).filterMap (fun b =>
    (db.getUserStats b.user_id).map (fun u =>
      { id := b.id
        user_id := b.user_id
        line_id := b.line_id
        option := b.option
        amount := b.amount
        username := u.username }))

/-! ## bettingService.js -/

/-- The ordered default palette of `generateEmojis`. -/
def defaultEmojis : List String :=
  [":a:", ":b:", ":c:", ":d:", ":e:", ":f:", ":g:", ":h:", ":i:", ":j:"]

/-- The curated override table of `generateEmojis` (`customEmojis`),
keyed by lowercase word. -/
def customEmojis (word : String) : Option String :=
  if word == "yes" then some ":white_check_mark:"
  else if word == "no" then some ":x:"
  else if word == "over" then some ":chart_with_upwards_trend:"
  else if word == "under" then some ":chart_with_downwards_trend:"
  else if word == "win" then some ":trophy:"
  else if word == "lose" then some ":broken_heart:"
  else if word == "tie" then some ":handshake:"
  else none

/-- JS `String.prototype.toLowerCase`, character-wise (the option words
involved are ASCII, where the JS function lowers each code unit). -/
def jsToLower (s : String) : String := String.mk (s.data.map Char.toLower)

/-- The body of the map in `generateEmojis`:
`customEmojis[lowerOption] || defaultEmojis[index] || placeholder`.
All emoji strings are non-empty, so JS truthiness here is definedness. -/
def emojiFor (index : Nat) (option : String) : String :=
  match customEmojis (jsToLower option) with
  | some e => e
  | none =>
    match defaultEmojis.get? index with
    | some e => e
    | none => ":" ++ toString (index + 1) ++ ":"

/-- `options.map((option, index) => ...)` rendered as indexed recursion. -/
def generateEmojisAux (index : Nat) : List String → List String
  | [] => []
  | o :: rest => emojiFor index o :: generateEmojisAux (index + 1) rest

/-- `generateEmojis` of bettingService.js. -/
def generateEmojis (options : List String) : List String :=
  generateEmojisAux 0 options

/-- First-occurrence-ordered list of the keys of `betsByOption`
(JS object string keys enumerate in insertion order, and the grouping
loop inserts a key the first time its option appears). -/
def optionKeys (bets : List BetRow) : List String :=
  bets.foldl (fun ks b => if b.option ∈ ks then ks else ks ++ [b.option]) []

/-- `betsByOption[o]`: grouping preserves within-group insertion order,
so the group of `o` is the filtered sublist of bets on that option. -/
def betsWithOption (bets : List BetRow) (o : String) : List BetRow :=
  bets.filter (fun b => b.option == o)

/-- The `losingBets` of `calculatePayouts`:
`Object.keys(betsByOption).filter(o => o !== winningOption)
 .flatMap(o => betsByOption[o])`. -/
def losingBetsOf (bets : List BetRow) (winningOption : String) : List BetRow :=
  ((optionKeys bets).filter (fun o => o != winningOption)).flatMap
    (fun o => betsWithOption bets o)

/-- One element of the `payouts` array of `calculatePayouts`. -/
structure PayoutEntry where
  userId : String
  username : String
  payout : Int
  originalBet : Int
deriving DecidableEq, Repr

/-- The result object of `calculatePayouts`.  `payoutPerWinner` and
`remainder` are `none` on the branches where the JS object omits the
fields. -/
structure PayoutData where
  payouts : List PayoutEntry
  totalPot : Int
  payoutPerWinner : Option Int
  remainder : Option Int
  message : String
deriving DecidableEq, Repr

/-- `calculatePayouts` of bettingService.js.  `Math.floor` of the float
quotient is `Int.fdiv`; the JS `%` (remainder with the dividend's sign)
is `Int.tmod`. -/
def calculatePayouts (db : DB) (lineId winningOption : String) :
    Except String PayoutData :=
  match db.getBettingLine lineId with
  | none => .error "Betting line not found"
  | some _line =>
    let bets := db.getBetsForLine lineId
    let winningBets := betsWithOption bets winningOption
    let losingBets := losingBetsOf bets winningOption
    let totalPot := losingBets.foldl (fun sum bet => sum + bet.amount) 0
    if winningBets.length == 0 then
      .ok { payouts := []
            totalPot := totalPot
            payoutPerWinner := none
            remainder := none
            message := "No one bet on the winning option. Pot retained by the bot." }
    else if losingBets.length == 0 then
      .ok { payouts := winningBets.map (fun bet =>
              { userId := bet.user_id
                username := bet.username
                payout := 0
                originalBet := bet.amount })
            totalPot := 0
            payoutPerWinner := none
            remainder := none
            message := "Everyone bet on the winning option. No payouts." }
    else
      let payoutPerWinner := Int.fdiv totalPot winningBets.length
      let remainder := Int.tmod totalPot winningBets.length
      .ok { payouts := winningBets.map (fun bet =>
              { userId := bet.user_id
                username := bet.username
                payout := payoutPerWinner
                originalBet := bet.amount })
            totalPot := totalPot
            payoutPerWinner := some payoutPerWinner
            remainder := some remainder
            message := "Winners receive " ++ toString payoutPerWinner ++
              " units each. " ++ toString remainder ++ " units remain in bot pool." }

/-- The validations-and-insert tail of `placeBet` (everything from the
comment "Check other validations" on). -/
def placeBetChecked (db : DB) (userId lineId option : String) :
    DB × Except String Bet :=
  match db.getUserStats userId with
  | none =>
    -- the JS dereferences user.balance on undefined and crashes with a
    -- TypeError; modelled as an error with no further mutation
    (db, .error "TypeError: user not found")
  | some user =>
    if user.balance < 1 then
      (db, .error "Insufficient balance to place a bet")
    else
      match db.getBettingLine lineId with
      | none => (db, .error "This betting line is no longer accepting bets")
      | some line =>
        if line.status != .open then
          (db, .error "This betting line is no longer accepting bets")
        else
          let db1 := db.updateUserBalance userId (user.balance - 1)
          let db2 := db1.incrementUserStats userId .total_bets 1
          let (db3, bet) := db2.insertBet userId lineId option
          (db3, .ok bet)

/-- `placeBet` of bettingService.js.  A thrown error carries the state as
mutated so far (the JS has no transaction, so the retirement of an
existing bet persists even if a later check throws). -/
def placeBet (db : DB) (userId lineId option : String) :
    DB × Except String Bet :=
  match db.getUserBetOnLine userId lineId with
  | some existingBet =>
    if existingBet.option == option then
      (db, .error "You have already bet on this option")
    else
      let db1 := db.deleteBet existingBet.id
      match db1.getUserStats userId with
      | none => (db1, .error "TypeError: user not found")
      | some user =>
        let db2 := db1.updateUserBalance userId (user.balance + existingBet.amount)
        let db3 := db2.incrementUserStats userId .total_bets (-1)
        placeBetChecked db3 userId lineId option
  | none => placeBetChecked db userId lineId option

/-- Body of the winner loop of `processPayouts`. -/
def creditWinner (db : DB) (p : PayoutEntry) : DB :=
  match db.getUserStats p.userId with
  | some user =>
    let db1 := db.updateUserBalance p.userId (user.balance + p.payout)
    db1.incrementUserStats p.userId .total_winnings p.payout
  | none => db

/-- Body of the loser loop of `processPayouts`; `Math.max(0, ...)` is
`max 0 _`. -/
def debitLoser (db : DB) (bet : BetRow) : DB :=
  match db.getUserStats bet.user_id with
  | some user => db.updateUserBalance bet.user_id (max 0 (user.balance - bet.amount))
  | none => db

/-- `processPayouts` of bettingService.js: credit each winner its payout
(and its total_winnings), then debit each losing bet from its owner. -/
def processPayouts (db : DB) (lineId winningOption : String) :
    DB × Except String PayoutData :=
  match calculatePayouts db lineId winningOption with
  | .error e => (db, .error e)
  | .ok payoutData =>
    let db1 := payoutData.payouts.foldl creditWinner db
    let bets := db1.getBetsForLine lineId
    let losingBets := bets.filter (fun b => b.option != winningOption)
    let db2 := losingBets.foldl debitLoser db1
    (db2, .ok payoutData)

/-! ## slackHandlers.js

The Slack transport (fetching the reacted message, checking it is a
betting card, extracting the line id from its text, rendering updates,
posting ephemeral replies) is an external-collaborator concern; the
handler models below receive the line id directly and report their
decision as an outcome value.  An `ignored` outcome is a silent early
`return`: nothing is posted to the member and no state changes. -/

/-- The handlers translate a Slack reaction name through a `nameToEmoji`
table and fall back to wrapping it in colons; every entry of that table
maps a name `n` to exactly the string `:n:`, so the whole translation is
the fallback formula. -/
def reactionToEmoji (reaction : String) : String := ":" ++ reaction ++ ":"

/-- Observable outcome of `handleReactionAdded`: a silent drop, an
ephemeral error from a thrown `placeBet` exception, or an ephemeral bet
confirmation. -/
inductive AddOutcome where
  | ignored
  | betError (message : String)
  | confirmed (option : String)
deriving DecidableEq, Repr

/-- The lazy member creation of the reaction handlers:
`let dbUser = await getUserBySlackId(user); if (!dbUser) dbUser = await
createUser(user, name)`. -/
def ensureUser (db : DB) (slackUser username : String) : DB × Member :=
  match db.getUserBySlackId slackUser with
  | some u => (db, u)
  | none => db.createUser slackUser username

/-- `handleReactionAdded` of slackHandlers.js. -/
def handleReactionAdded (db : DB) (lineId slackUser username reaction : String) :
    DB × AddOutcome :=
  match db.getBettingLine lineId with
  | none => (db, .ignored)
  | some line =>
    if line.status != .open then (db, .ignored)
    else
      let reactedEmoji := reactionToEmoji reaction
      match line.emojis.findIdx? (fun e => e == reactedEmoji) with
      | none => (db, .ignored)
      | some optionIndex =>
        match line.options.get? optionIndex with
        | none =>
          -- options[optionIndex] is undefined: unreachable for lines
          -- whose emoji list is index-aligned with the options, as
          -- generateEmojis guarantees at creation
          (db, .ignored)
        | some selectedOption =>
          match ensureUser db slackUser username with
          | (db1, dbUser) =>
            match placeBet db1 dbUser.id line.id selectedOption with
            | (db2, .ok _bet) => (db2, .confirmed selectedOption)
            | (db2, .error msg) => (db2, .betError msg)

/-- Observable outcome of `handleReactionRemoved`. -/
inductive RemOutcome where
  | ignored
  | removed (option : String)
deriving DecidableEq, Repr

/-- `handleReactionRemoved` of slackHandlers.js. -/
def handleReactionRemoved (db : DB) (lineId slackUser reaction : String) :
    DB × RemOutcome :=
  match db.getBettingLine lineId with
  | none => (db, .ignored)
  | some line =>
    if line.status != .open then (db, .ignored)
    else
      match db.getUserBySlackId slackUser with
      | none => (db, .ignored)
      | some dbUser =>
        match db.getUserBetOnLine dbUser.id lineId with
        | none => (db, .ignored)
        | some userBet =>
          let reactedEmoji := reactionToEmoji reaction
          match line.emojis.findIdx? (fun e => e == reactedEmoji) with
          | none => (db, .ignored)
          | some optionIndex =>
            match line.options.get? optionIndex with
            | none => (db, .ignored)
            | some selectedOption =>
              if userBet.option != selectedOption then (db, .ignored)
              else
                let db1 := db.deleteBet userBet.id
                let db2 := db1.updateUserBalance dbUser.id
                  (dbUser.balance + userBet.amount)
                let db3 := db2.incrementUserStats dbUser.id .total_bets (-1)
                (db3, .removed selectedOption)

/-- Observable outcome of `handleLockLine` (the `isAdmin` predicate of
the source is the constant true). -/
inductive LockOutcome where
  | notFound
  | notOpen
  | locked
deriving DecidableEq, Repr

/-- `handleLockLine` of slackHandlers.js. -/
def handleLockLine (db : DB) (lineId : String) : DB × LockOutcome :=
  match db.getBettingLine lineId with
  | none => (db, .notFound)
  | some line =>
    if line.status != .open then (db, .notOpen)
    else (db.updateLineStatus line.id .locked none, .locked)

/-- Observable outcome of `handleResolveLine`. -/
inductive ResolveOutcome where
  | notFound
  | invalidOption
  | error (message : String)
  | resolved (payoutData : PayoutData)
deriving DecidableEq, Repr

/-- True exactly on the `resolved` outcome. -/
def ResolveOutcome.isResolved : ResolveOutcome → Bool
  | .resolved _ => true
  | _ => false

/-- `handleResolveLine` of slackHandlers.js.  NOTE: unlike
`handleLockLine`, the source performs no check of the line's current
status here — an already-locked or already-resolved line is accepted and
`processPayouts` runs again. -/
def handleResolveLine (db : DB) (lineId winningOption : String) :
    DB × ResolveOutcome :=
  match db.getBettingLine lineId with
  | none => (db, .notFound)
  | some line =>
    if !(line.options.contains winningOption) then (db, .invalidOption)
    else
      match processPayouts db lineId winningOption with
      | (db1, .error msg) => (db1, .error msg)
      | (db1, .ok payoutData) =>
        let db2 := db1.updateLineStatus line.id .resolved (some winningOption)
        (db2, .resolved payoutData)

/-! ## Event sequences

External events arrive one at a time (the design serialises handling);
a system run is a fold of the handlers over an event list. -/

/-- One inbound external event, carrying exactly the data the matching
handler consumes. -/
inductive Event where
  | reactionAdded (lineId slackUser username reaction : String)
  | reactionRemoved (lineId slackUser reaction : String)
  | lockLine (lineId : String)
  | resolveLine (lineId winningOption : String)
deriving DecidableEq, Repr

/-- State transition of a single event. -/
def step (db : DB) (e : Event) : DB :=
  match e with
  | .reactionAdded l u n r => (handleReactionAdded db l u n r).1
  | .reactionRemoved l u r => (handleReactionRemoved db l u r).1
  | .lockLine l => (handleLockLine db l).1
  | .resolveLine l w => (handleResolveLine db l w).1

/-- State after a sequence of events. -/
def run (db : DB) (events : List Event) : DB := events.foldl step db

/-! ## Concrete scenario

The three-member over/under scenario of the spec's testable properties:
three members at the default balance 20, stakes M1→over, M2→under,
M3→over, resolution with winner "over". -/

/-- The empty store. -/
def emptyDB : DB :=
  { users := [], lines := [], bets := [], nextUserId := 0, nextLineId := 0,
    nextBetId := 0 }

/-- Three members created lazily with the schema default balance 20.
Internal ids are "user-0", "user-1", "user-2". -/
def demoUsersDB : DB :=
  let d1 := (emptyDB.createUser "slack-m1" "M1").1
  let d2 := (d1.createUser "slack-m2" "M2").1
  (d2.createUser "slack-m3" "M3").1

/-- The over/under line (id "line-0"), with its symbols assigned by
`generateEmojis` at creation. -/
def demoLineDB : DB :=
  (demoUsersDB.createBettingLine "Will it go over?" ["over", "under"]
    (generateEmojis ["over", "under"])).1

/-- M1 stakes over, M2 stakes under, M3 stakes over. -/
def demoStakedDB : DB :=
  let d1 := (placeBet demoLineDB "user-0" "line-0" "over").1
  let d2 := (placeBet d1 "user-1" "line-0" "under").1
  (placeBet d2 "user-2" "line-0" "over").1

/-- First resolution of the line with winner "over". -/
def demoResolve1 : DB × ResolveOutcome :=
  handleResolveLine demoStakedDB "line-0" "over"

/-- A second resolve-line command on the very same, now resolved, line. -/
def demoResolve2 : DB × ResolveOutcome :=
  handleResolveLine demoResolve1.1 "line-0" "over"

/-- Balance of a member, read back from the store. -/
def balanceOf (db : DB) (userId : String) : Option Int :=
  (db.getUserStats userId).map (fun u => u.balance)

/-- Stake count (`total_bets`) of a member, read back from the store. -/
def totalBetsOf (db : DB) (userId : String) : Option Int :=
  (db.getUserStats userId).map (fun u => u.total_bets)

/-- The payout data carried by a `resolved` outcome, if any. -/
def ResolveOutcome.payoutData? : ResolveOutcome → Option PayoutData
  | .resolved pd => some pd
  | _ => none

/-- The over/under line as stored after `demoLineDB` creates it. -/
def demoLine0 : Line :=
  { id := "line-0"
    question := "Will it go over?"
    options := ["over", "under"]
    emojis := generateEmojis ["over", "under"]
    status := .open
    winner_option := none }

/-- A state with the locked over/under line and M1 already staked on
"over". -/
def lockedDB : DB := (handleLockLine (placeBet demoLineDB "user-0" "line-0" "over").1 "line-0").1

/-- A state with the open over/under line, M1 staked on "over", and M1's
balance then forced to 0 (as the repository's own test does for its
insufficient-balance check). -/
def brokeSwitcherDB : DB :=
  ((placeBet demoLineDB "user-0" "line-0" "over").1).updateUserBalance "user-0" 0

/-! ## Invariant predicates -/

/-- Every member balance and every stake amount in the store is
non-negative. -/
def nonnegState (db : DB) : Bool :=
  db.users.all (fun u => decide (0 ≤ u.balance)) &&
  db.bets.all (fun b => decide (0 ≤ b.amount))

/-- The bets store holds at most one row per (member, line) pair. -/
def uniqueStakes (db : DB) : Prop :=
  List.Pairwise
    (fun b1 b2 => ¬(b1.user_id = b2.user_id ∧ b1.line_id = b2.line_id))
    db.bets

instance (db : DB) : Decidable (uniqueStakes db) := by
  unfold uniqueStakes; infer_instance

/-- The spec's conditions for a signal-removal event to retire a stake,
written from the claim's own words (and to be compared against what
`handleReactionRemoved` does): the line is open, the removed symbol
decodes to an option of the line, the member has a stake on the line,
and that stake's option equals the decoded option. -/
def specRemovalConditions (db : DB) (line : Line) (userId reactedEmoji : String) :
    Bool :=
  (line.status == .open) &&
  (match line.emojis.findIdx? (fun e => e == reactedEmoji) with
   | none => false
   | some idx =>
     match line.options.get? idx with
     | none => false
     | some opt =>
       match db.getUserBetOnLine userId line.id with
       | none => false
       | some bet => bet.option == opt)

/-! # Theorems -/

/-! ## Grouping and summation lemmas for the payout computation -/

theorem foldl_add_amount (l : List BetRow) (a : Int) :
    l.foldl (fun sum bet => sum + bet.amount) a
      = a + (l.map (fun b => b.amount)).sum := by
  induction l generalizing a with
  | nil => simp
  | cons b t ih => simp [ih]; ring

theorem filter_or_of_disjoint {α : Type} (p q : α → Bool) (l : List α)
    (hdisj : ∀ x, p x = true → q x = false) :
    (l.filter p ++ l.filter q).Perm (l.filter (fun x => p x || q x)) := by
  induction l with
  | nil => simp
  | cons x t ih =>
    cases hp : p x with
    | true =>
      have hq := hdisj x hp
      simpa [List.filter_cons, hp, hq] using ih.cons x
    | false =>
      cases hq : q x with
      | true =>
        simp only [List.filter_cons, hp, hq, if_true, if_false, Bool.false_or,
          ite_true, ite_false]
        exact List.perm_middle.trans (ih.cons x)
      | false => simpa [List.filter_cons, hp, hq] using ih

theorem flatMap_groups_perm (ks : List String) (bets : List BetRow)
    (hnd : ks.Nodup) :
    (ks.flatMap (fun o => betsWithOption bets o)).Perm
      (bets.filter (fun b => ks.contains b.option)) := by
  induction ks with
  | nil => simp
  | cons k t ih =>
    rcases List.nodup_cons.mp hnd with ⟨hk, hnd'⟩
    have h2 : (betsWithOption bets k
        ++ bets.filter (fun b => t.contains b.option)).Perm
        (bets.filter (fun b => (b.option == k) || t.contains b.option)) := by
      apply filter_or_of_disjoint
      intro b hb
      have hbk : b.option = k := by simpa using hb
      cases hq : t.contains b.option with
      | false => rfl
      | true =>
        exact absurd (hbk ▸ List.elem_iff.mp hq) hk
    have h0 : ((k :: t).flatMap (fun o => betsWithOption bets o))
        = betsWithOption bets k ++ t.flatMap (fun o => betsWithOption bets o) := by
      simp
    have h3 : bets.filter (fun b => (b.option == k) || t.contains b.option)
        = bets.filter (fun b => (k :: t).contains b.option) :=
      List.filter_congr (fun b _ => by rw [List.contains_cons])
    rw [h0, ← h3]
    exact (List.Perm.append_left _ (ih hnd')).trans h2

theorem mem_foldl_insertKey (bets : List BetRow) (ks : List String) (o : String) :
    (o ∈ bets.foldl
        (fun ks b => if b.option ∈ ks then ks else ks ++ [b.option]) ks)
      ↔ o ∈ ks ∨ ∃ b ∈ bets, b.option = o := by
  induction bets generalizing ks with
  | nil => simp
  | cons b t ih =>
    simp only [List.foldl_cons]
    rw [ih, List.exists_mem_cons_iff]
    by_cases hb : b.option ∈ ks
    · simp only [hb, if_true, ite_true]
      constructor
      · rintro (h | h)
        · exact Or.inl h
        · exact Or.inr (Or.inr h)
      · rintro (h | h | h)
        · exact Or.inl h
        · exact Or.inl (h ▸ hb)
        · exact Or.inr h
    · simp only [hb, if_false, ite_false, List.mem_append, List.mem_singleton]
      constructor
      · rintro ((h | h) | h)
        · exact Or.inl h
        · exact Or.inr (Or.inl h.symm)
        · exact Or.inr (Or.inr h)
      · rintro (h | h | h)
        · exact Or.inl (Or.inl h)
        · exact Or.inl (Or.inr h.symm)
        · exact Or.inr h

theorem nodup_foldl_insertKey (bets : List BetRow) (ks : List String)
    (h : ks.Nodup) :
    (bets.foldl
        (fun ks b => if b.option ∈ ks then ks else ks ++ [b.option]) ks).Nodup := by
  induction bets generalizing ks with
  | nil => simpa
  | cons b t ih =>
    simp only [List.foldl_cons]
    apply ih
    by_cases hb : b.option ∈ ks
    · simpa [hb]
    · simp only [hb, if_false, ite_false]
      rw [List.nodup_append]
      exact ⟨h, List.nodup_singleton _, by
        intro a ha hmem
        rw [List.mem_singleton] at hmem
        exact hb (hmem ▸ ha)⟩

theorem mem_optionKeys (bets : List BetRow) (o : String) :
    o ∈ optionKeys bets ↔ ∃ b ∈ bets, b.option = o := by
  unfold optionKeys
  rw [mem_foldl_insertKey]
  simp

theorem nodup_optionKeys (bets : List BetRow) : (optionKeys bets).Nodup :=
  nodup_foldl_insertKey bets [] List.nodup_nil

/-- The grouped losing-bet list of `calculatePayouts` is a permutation of
the plain losing filter (same multiset of rows, first grouped by
option). -/
theorem losingBetsOf_perm (bets : List BetRow) (w : String) :
    (losingBetsOf bets w).Perm (bets.filter (fun b => b.option != w)) := by
  unfold losingBetsOf
  have hnd : ((optionKeys bets).filter (fun o => o != w)).Nodup :=
    (nodup_optionKeys bets).filter _
  refine (flatMap_groups_perm _ bets hnd).trans ?_
  have hcongr : ∀ b ∈ bets,
      ((optionKeys bets).filter (fun o => o != w)).contains b.option
        = (b.option != w) := by
    intro b hb
    cases h : (b.option != w) with
    | true =>
      have hmem : b.option ∈ (optionKeys bets).filter (fun o => o != w) :=
        List.mem_filter.mpr ⟨(mem_optionKeys bets _).mpr ⟨b, hb, rfl⟩, h⟩
      exact List.elem_iff.mpr hmem
    | false =>
      cases hc : ((optionKeys bets).filter (fun o => o != w)).contains b.option with
      | false => rfl
      | true =>
        have := (List.mem_filter.mp (List.elem_iff.mp hc)).2
        rw [h] at this
        exact absurd this (by simp)
  rw [List.filter_congr hcongr]

/-- The pot accumulated by the source's `reduce` over the grouped losing
bets equals the sum of the amounts of the bets whose option is not the
winning option. -/
theorem losing_foldl_eq_filter_sum (bets : List BetRow) (w : String) :
    (losingBetsOf bets w).foldl (fun sum bet => sum + bet.amount) 0
      = ((bets.filter (fun b => b.option != w)).map (fun b => b.amount)).sum := by
  rw [foldl_add_amount, zero_add]
  exact ((losingBetsOf_perm bets w).map (fun b => b.amount)).sum_eq

/-! ## C2: integer identities of the payout computation -/

/-- C2: for every line, stake set and winning option with at least one
winning stake and at least one losing stake (amounts being non-negative,
as every stake the system creates has amount 1), the computed
PayoutResult satisfies the exact integer identities: `pot` equals the sum
of the losing stake amounts, `perWinner` equals `floor(pot / |W|)`,
`remainder` equals `pot mod |W|`, every winner's payout equals
`perWinner`, and `perWinner * |W| + remainder = pot`. -/
theorem calculatePayouts_integer_identities
    (db : DB) (lineId w : String) (line : Line)
    (hline : db.getBettingLine lineId = some line)
    (hW : betsWithOption (db.getBetsForLine lineId) w ≠ [])
    (hL : losingBetsOf (db.getBetsForLine lineId) w ≠ [])
    (hamt : ∀ b ∈ db.getBetsForLine lineId, 0 ≤ b.amount) :
    ∃ pd, calculatePayouts db lineId w = .ok pd ∧
      pd.totalPot = ((db.getBetsForLine lineId).filter
          (fun b => b.option != w) |>.map (fun b => b.amount)).sum ∧
      pd.payoutPerWinner = some (Int.fdiv pd.totalPot
          (betsWithOption (db.getBetsForLine lineId) w).length) ∧
      pd.remainder = some (Int.tmod pd.totalPot
          (betsWithOption (db.getBetsForLine lineId) w).length) ∧
      pd.payouts.length = (betsWithOption (db.getBetsForLine lineId) w).length ∧
      (∀ p ∈ pd.payouts, p.payout = Int.fdiv pd.totalPot
          (betsWithOption (db.getBetsForLine lineId) w).length) ∧
      Int.fdiv pd.totalPot (betsWithOption (db.getBetsForLine lineId) w).length
          * (betsWithOption (db.getBetsForLine lineId) w).length
        + Int.tmod pd.totalPot (betsWithOption (db.getBetsForLine lineId) w).length
        = pd.totalPot := by
  have hWlen : ((betsWithOption (db.getBetsForLine lineId) w).length == 0) = false := by
    simp [List.length_eq_zero, hW]
  have hLlen : ((losingBetsOf (db.getBetsForLine lineId) w).length == 0) = false := by
    simp [List.length_eq_zero, hL]
  have hpot := losing_foldl_eq_filter_sum (db.getBetsForLine lineId) w
  have hcalc : calculatePayouts db lineId w = .ok
      { payouts := (betsWithOption (db.getBetsForLine lineId) w).map (fun bet =>
          { userId := bet.user_id
            username := bet.username
            payout := Int.fdiv
              ((losingBetsOf (db.getBetsForLine lineId) w).foldl
                (fun sum bet => sum + bet.amount) 0)
              (betsWithOption (db.getBetsForLine lineId) w).length
            originalBet := bet.amount })
        totalPot := (losingBetsOf (db.getBetsForLine lineId) w).foldl
          (fun sum bet => sum + bet.amount) 0
        payoutPerWinner := some (Int.fdiv
          ((losingBetsOf (db.getBetsForLine lineId) w).foldl
            (fun sum bet => sum + bet.amount) 0)
          (betsWithOption (db.getBetsForLine lineId) w).length)
        remainder := some (Int.tmod
          ((losingBetsOf (db.getBetsForLine lineId) w).foldl
            (fun sum bet => sum + bet.amount) 0)
          (betsWithOption (db.getBetsForLine lineId) w).length)
        message := "Winners receive " ++ toString (Int.fdiv
            ((losingBetsOf (db.getBetsForLine lineId) w).foldl
              (fun sum bet => sum + bet.amount) 0)
            (betsWithOption (db.getBetsForLine lineId) w).length) ++
          " units each. " ++ toString (Int.tmod
            ((losingBetsOf (db.getBetsForLine lineId) w).foldl
              (fun sum bet => sum + bet.amount) 0)
            (betsWithOption (db.getBetsForLine lineId) w).length) ++
          " units remain in bot pool." } := by
    simp only [calculatePayouts, hline, hWlen, hLlen, Bool.false_eq_true,
      if_false, ite_false]
  have hn : (0 : Int) < (betsWithOption (db.getBetsForLine lineId) w).length := by
    exact_mod_cast List.length_pos.mpr hW
  have hpotnn : 0 ≤ ((db.getBetsForLine lineId).filter
      (fun b => b.option != w) |>.map (fun b => b.amount)).sum := by
    apply List.sum_nonneg
    intro x hx
    obtain ⟨b, hb, rfl⟩ := List.mem_map.mp hx
    exact hamt b (List.mem_filter.mp hb).1
  refine ⟨_, hcalc, ?_, ?_, ?_, ?_, ?_, ?_⟩
  · simpa using hpot
  · simp [hpot]
  · simp [hpot]
  · simp
  · intro p hp
    simp only [List.mem_map] at hp
    obtain ⟨bet, _, rfl⟩ := hp
    simp [hpot]
  · simp only [hpot]
    rw [Int.fdiv_eq_ediv _ (le_of_lt hn), Int.tmod_eq_emod hpotnn (le_of_lt hn)]
    exact Int.ediv_add_emod' _ _

/-- Witness for the C2 theorem at the staked three-member scenario. -/
theorem calculatePayouts_integer_identities_witness :
    demoStakedDB.getBettingLine "line-0" = some demoLine0 ∧
    betsWithOption (demoStakedDB.getBetsForLine "line-0") "over" ≠ [] ∧
    losingBetsOf (demoStakedDB.getBetsForLine "line-0") "over" ≠ [] ∧
    (∀ b ∈ demoStakedDB.getBetsForLine "line-0", 0 ≤ b.amount) ∧
    (∃ pd, calculatePayouts demoStakedDB "line-0" "over" = .ok pd ∧
      pd.totalPot = ((demoStakedDB.getBetsForLine "line-0").filter
          (fun b => b.option != "over") |>.map (fun b => b.amount)).sum ∧
      pd.payoutPerWinner = some (Int.fdiv pd.totalPot
          (betsWithOption (demoStakedDB.getBetsForLine "line-0") "over").length) ∧
      pd.remainder = some (Int.tmod pd.totalPot
          (betsWithOption (demoStakedDB.getBetsForLine "line-0") "over").length) ∧
      pd.payouts.length
          = (betsWithOption (demoStakedDB.getBetsForLine "line-0") "over").length ∧
      (∀ p ∈ pd.payouts, p.payout = Int.fdiv pd.totalPot
          (betsWithOption (demoStakedDB.getBetsForLine "line-0") "over").length) ∧
      Int.fdiv pd.totalPot
          (betsWithOption (demoStakedDB.getBetsForLine "line-0") "over").length
          * (betsWithOption (demoStakedDB.getBetsForLine "line-0") "over").length
        + Int.tmod pd.totalPot
          (betsWithOption (demoStakedDB.getBetsForLine "line-0") "over").length
        = pd.totalPot) :=
  ⟨by decide, by decide, by decide, by decide,
    calculatePayouts_integer_identities demoStakedDB "line-0" "over" demoLine0
      (by decide) (by decide) (by decide) (by decide)⟩

/-! ## C9: the emoji encoder -/

theorem generateEmojisAux_length (k : Nat) (options : List String) :
    (generateEmojisAux k options).length = options.length := by
  induction options generalizing k with
  | nil => rfl
  | cons o t ih => simp [generateEmojisAux, ih]

theorem generateEmojisAux_get? (k i : Nat) (options : List String) :
    (generateEmojisAux k options).get? i
      = (options.get? i).map (fun o => emojiFor (k + i) o) := by
  induction options generalizing k i with
  | nil => simp [generateEmojisAux]
  | cons o t ih =>
    cases i with
    | zero => simp [generateEmojisAux]
    | succ n =>
      have hk : k + (n + 1) = (k + 1) + n := by omega
      show (emojiFor k o :: generateEmojisAux (k + 1) t).get? (n + 1) = _
      rw [List.get?_cons_succ, List.get?_cons_succ, ih]
      simp only [hk]

/-- C9: `generateEmojis` returns a symbol list of exactly the same length
and index alignment as the options; the symbol at index i is the curated
symbol for the lowercased option word when that word is in the table,
otherwise the i-th symbol of the 10-element default palette for i < 10,
otherwise the numeric placeholder ":i+1:". -/
theorem generateEmojis_spec (options : List String) (i : Nat) (o : String)
    (hi : options.get? i = some o) :
    (generateEmojis options).length = options.length ∧
    ((customEmojis (jsToLower o)).isSome = true →
        (generateEmojis options).get? i = customEmojis (jsToLower o)) ∧
    (customEmojis (jsToLower o) = none → i < 10 →
        (generateEmojis options).get? i = defaultEmojis.get? i) ∧
    (customEmojis (jsToLower o) = none → 10 ≤ i →
        (generateEmojis options).get? i = some (":" ++ toString (i + 1) ++ ":")) := by
  have hget : (generateEmojis options).get? i = some (emojiFor i o) := by
    unfold generateEmojis
    rw [generateEmojisAux_get? 0 i, hi]
    simp
  have hlen : defaultEmojis.length = 10 := rfl
  refine ⟨generateEmojisAux_length 0 options, ?_, ?_, ?_⟩
  · intro hsome
    obtain ⟨e, he⟩ := Option.isSome_iff_exists.mp hsome
    rw [hget]
    unfold emojiFor
    rw [he]
  · intro hnone hlt
    rw [hget]
    unfold emojiFor
    rw [hnone]
    have hi10 : i < defaultEmojis.length := by omega
    rw [List.get?_eq_get hi10]
  · intro hnone hge
    rw [hget]
    unfold emojiFor
    rw [hnone]
    have hn : defaultEmojis.get? i = none := List.get?_eq_none.mpr (by omega)
    rw [hn]

/-- Witness for the C9 theorem: one option word in the curated table
("Over", matched case-insensitively) in a two-option list. -/
theorem generateEmojis_spec_witness :
    (["Over", "mystery"].get? 0 = some "Over") ∧
    ((generateEmojis ["Over", "mystery"]).length = (["Over", "mystery"] : List String).length ∧
    ((customEmojis (jsToLower "Over")).isSome = true →
        (generateEmojis ["Over", "mystery"]).get? 0 = customEmojis (jsToLower "Over")) ∧
    (customEmojis (jsToLower "Over") = none → 0 < 10 →
        (generateEmojis ["Over", "mystery"]).get? 0 = defaultEmojis.get? 0) ∧
    (customEmojis (jsToLower "Over") = none → 10 ≤ 0 →
        (generateEmojis ["Over", "mystery"]).get? 0
          = some (":" ++ toString (0 + 1) ++ ":"))) :=
  ⟨by decide, generateEmojis_spec ["Over", "mystery"] 0 "Over" (by decide)⟩

/-! ## C3: the three-member over/under scenario -/

/-- C3 counterexample: in the exact scenario of the claim (three members
at 20, M1→over, M2→under, M3→over, resolve winner over), the code leaves
M2 at balance 18, not 19: M2's stake unit was debited at placement and
the loser loop of `processPayouts` debits the stake amount a second time
at resolution. -/
theorem scenario_m2_final_balance_is_18 :
    balanceOf demoResolve1.1 "user-1" = some 18 ∧
    balanceOf demoResolve1.1 "user-1" ≠ some 19 := by decide

/-- C3 (amended): in the scenario, the computed pot is 1, the winners
are M1 and M3, perWinner is 0, remainder is 1, and the final balances
are M1=19, M2=18, M3=19 — the loser's balance reflects both the
placement debit and the resolution debit. -/
theorem scenario_resolution_results :
    demoResolve1.2.payoutData?.map
        (fun pd => (pd.totalPot, pd.payoutPerWinner, pd.remainder,
          pd.payouts.map (fun p => p.userId)))
      = some (1, some 0, some 1, ["user-0", "user-2"]) ∧
    balanceOf demoResolve1.1 "user-0" = some 19 ∧
    balanceOf demoResolve1.1 "user-1" = some 18 ∧
    balanceOf demoResolve1.1 "user-2" = some 19 := by decide

/-! ## C1: a second resolve is not rejected -/

/-- C1: the code accepts a second resolve-line command on an
already-resolved line.  After the scenario line is resolved once (status
is `resolved`, M2 at 18), a second resolve on it reports success — it is
not rejected with any AlreadyResolved error — and the payout logic runs
again, debiting the loser M2 a second time from 18 to 17. -/
theorem second_resolve_accepted_and_pays_again :
    (demoResolve1.1.getBettingLine "line-0").map (fun l => l.status)
        = some .resolved ∧
    demoResolve2.2.isResolved = true ∧
    balanceOf demoResolve1.1 "user-1" = some 18 ∧
    balanceOf demoResolve2.1 "user-1" = some 17 := by decide

/-! ## Small store lemmas -/

theorem getUserStats_deleteBet (db : DB) (i uid : String) :
    (db.deleteBet i).getUserStats uid = db.getUserStats uid := rfl

theorem getBettingLine_deleteBet (db : DB) (i lid : String) :
    (db.deleteBet i).getBettingLine lid = db.getBettingLine lid := rfl

theorem getBettingLine_updateUserBalance (db : DB) (uid : String) (nb : Int)
    (lid : String) :
    (db.updateUserBalance uid nb).getBettingLine lid = db.getBettingLine lid := rfl

theorem getBettingLine_incrementUserStats (db : DB) (uid : String)
    (f : StatField) (a : Int) (lid : String) :
    (db.incrementUserStats uid f a).getBettingLine lid = db.getBettingLine lid := rfl

theorem find?_ite_map (users : List Member) (uid : String) (f : Member → Member)
    (hf : ∀ u, (f u).id = u.id) :
    (users.map (fun u => if u.id == uid then f u else u)).find?
        (fun u => u.id == uid)
      = (users.find? (fun u => u.id == uid)).map
          (fun u => if u.id == uid then f u else u) := by
  induction users with
  | nil => rfl
  | cons u t ih =>
    by_cases hp : u.id = uid
    · have h : (u.id == uid) = true := beq_iff_eq.mpr hp
      have hfu : ((f u).id == uid) = true := by rw [hf]; exact h
      simp only [List.map_cons, if_pos h]
      rw [@List.find?_cons_of_pos _ (fun v => v.id == uid) (f u) _ hfu,
        @List.find?_cons_of_pos _ (fun v => v.id == uid) u _ h,
        Option.map_some', if_pos h]
    · have hn : ¬((u.id == uid) = true) := by simpa using hp
      simp only [List.map_cons, if_neg hn]
      rw [@List.find?_cons_of_neg _ (fun v => v.id == uid) u _ hn,
        @List.find?_cons_of_neg _ (fun v => v.id == uid) u _ hn]
      exact ih

theorem getUserStats_updateUserBalance_self (db : DB) (uid : String) (nb : Int) :
    (db.updateUserBalance uid nb).getUserStats uid
      = (db.getUserStats uid).map (fun u => { u with balance := nb }) := by
  have h := find?_ite_map db.users uid (fun u => { u with balance := nb })
    (fun u => rfl)
  show (db.users.map (fun u => if u.id == uid then { u with balance := nb } else u)).find?
      (fun u => u.id == uid)
    = (db.users.find? (fun u => u.id == uid)).map (fun u => { u with balance := nb })
  rw [h]
  cases hfind : db.users.find? (fun u => u.id == uid) with
  | none => rfl
  | some u =>
    have ht := List.find?_some hfind
    simp only [Option.map_some', if_pos ht]

theorem getUserStats_incrementUserStats_self (db : DB) (uid : String)
    (f : StatField) (a : Int) :
    (db.incrementUserStats uid f a).getUserStats uid
      = (db.getUserStats uid).map (fun u =>
          match f with
          | .total_bets => { u with total_bets := u.total_bets + a }
          | .total_winnings => { u with total_winnings := u.total_winnings + a }) := by
  cases f with
  | total_bets =>
    have h := find?_ite_map db.users uid
      (fun u => { u with total_bets := u.total_bets + a }) (fun u => rfl)
    show (db.users.map (fun u => if u.id == uid then
          { u with total_bets := u.total_bets + a } else u)).find?
        (fun u => u.id == uid)
      = (db.users.find? (fun u => u.id == uid)).map
          (fun u => { u with total_bets := u.total_bets + a })
    rw [h]
    cases hfind : db.users.find? (fun u => u.id == uid) with
    | none => rfl
    | some u =>
      have ht := List.find?_some hfind
      simp only [Option.map_some', if_pos ht]
  | total_winnings =>
    have h := find?_ite_map db.users uid
      (fun u => { u with total_winnings := u.total_winnings + a }) (fun u => rfl)
    show (db.users.map (fun u => if u.id == uid then
          { u with total_winnings := u.total_winnings + a } else u)).find?
        (fun u => u.id == uid)
      = (db.users.find? (fun u => u.id == uid)).map
          (fun u => { u with total_winnings := u.total_winnings + a })
    rw [h]
    cases hfind : db.users.find? (fun u => u.id == uid) with
    | none => rfl
    | some u =>
      have ht := List.find?_some hfind
      simp only [Option.map_some', if_pos ht]

/-! ## C4: signal-added on a non-open line -/

/-- C4 counterexample: on the locked scenario line, with the member
already holding a stake on a different option, a signal-added event for
the other option's symbol is silently dropped — the handler returns
without posting anything to the member (so no LineNotOpen rejection is
surfaced), though indeed nothing in the store changes. -/
theorem reactionAdded_locked_silent_drop :
    (lockedDB.getBettingLine "line-0").map (fun l => l.status)
        = some .locked ∧
    (lockedDB.getUserBetOnLine "user-0" "line-0").map (fun b => b.option)
        = some "over" ∧
    handleReactionAdded lockedDB "line-0" "slack-m1" "M1"
        "chart_with_downwards_trend" = (lockedDB, .ignored) := by decide

/-- C4 (amended): for every member and every line whose status is not
open, a signal-added event for that line is silently ignored before any
stake logic runs: the handler returns with no state change — no stake
created, no stake retired, no balance or stat touched — and nothing is
surfaced to the member (the LineNotOpen-style error of placeBet is never
reached, because the handler returns on its own status check first). -/
theorem reactionAdded_nonopen_no_state_change
    (db : DB) (lineId slackUser username reaction : String) (line : Line)
    (hline : db.getBettingLine lineId = some line)
    (hstatus : line.status ≠ .open) :
    handleReactionAdded db lineId slackUser username reaction
      = (db, .ignored) := by
  have hb : (line.status != LineStatus.open) = true := by
    simpa using hstatus
  simp only [handleReactionAdded, hline, hb, if_true, ite_true]

/-- Witness for the C4 theorem at the locked scenario line. -/
theorem reactionAdded_nonopen_no_state_change_witness :
    lockedDB.getBettingLine "line-0"
        = some { demoLine0 with status := .locked } ∧
    ({ demoLine0 with status := .locked } : Line).status ≠ .open ∧
    handleReactionAdded lockedDB "line-0" "slack-m1" "M1"
        "chart_with_downwards_trend" = (lockedDB, .ignored) :=
  ⟨by decide, by decide,
    reactionAdded_nonopen_no_state_change lockedDB "line-0" "slack-m1" "M1"
      "chart_with_downwards_trend" { demoLine0 with status := .locked }
      (by decide) (by decide)⟩

/-! ## C5: balance check versus retirement order in placeBet -/

/-- C5 counterexample: a member at balance 0 holding a stake on "over"
of the open scenario line successfully switches to "under" — placeBet
does not reject with InsufficientBalance, because it retires and refunds
the existing stake before checking the balance. -/
theorem zero_balance_switch_succeeds :
    balanceOf brokeSwitcherDB "user-0" = some 0 ∧
    (brokeSwitcherDB.getUserBetOnLine "user-0" "line-0").map (fun b => b.option)
        = some "over" ∧
    (placeBet brokeSwitcherDB "user-0" "line-0" "under").2
        = Except.ok { id := "bet-1", user_id := "user-0", line_id := "line-0",
                      option := "under", amount := 1 } ∧
    balanceOf (placeBet brokeSwitcherDB "user-0" "line-0" "under").1 "user-0"
        = some 0 ∧
    ((placeBet brokeSwitcherDB "user-0" "line-0" "under").1.getUserBetOnLine
        "user-0" "line-0").map (fun b => b.option) = some "under" := by decide

/-- C5 (amended): in placeBet the retirement of an existing
different-option stake precedes the balance check.  A member with
balance < 1 holding no stake on the line is rejected with
InsufficientBalance and the store is unchanged; but a member holding a
stake of amount ≥ 1 on a different option of an open line is not
rejected even at balance 0 — the retirement refund arrives before the
balance check, so the switch succeeds. -/
theorem placeBet_balance_check_after_retirement
    (db : DB) (uid lid o : String) (user : Member)
    (hu : db.getUserStats uid = some user) :
    (db.getUserBetOnLine uid lid = none → user.balance < 1 →
      placeBet db uid lid o
        = (db, .error "Insufficient balance to place a bet")) ∧
    (∀ eb, db.getUserBetOnLine uid lid = some eb → eb.option ≠ o →
      1 ≤ eb.amount → 0 ≤ user.balance →
      ∀ line, db.getBettingLine lid = some line → line.status = .open →
      ∃ bet, (placeBet db uid lid o).2 = Except.ok bet ∧ bet.option = o) := by
  constructor
  · intro hbet hbal
    simp only [placeBet, hbet, placeBetChecked, hu, if_pos hbal]
  · intro eb hbet hdiff hamt hbal line hline hopen
    have hne : (eb.option == o) = false := by simpa using hdiff
    simp only [placeBet, hbet, hne, Bool.false_eq_true, if_false, ite_false]
    rw [getUserStats_deleteBet, hu]
    simp only []
    set db1 := (db.deleteBet eb.id).updateUserBalance uid (user.balance + eb.amount)
      with hdb1
    set db2 := db1.incrementUserStats uid .total_bets (-1) with hdb2
    have hu2 : db2.getUserStats uid = some
        { user with balance := user.balance + eb.amount,
                    total_bets := user.total_bets + (-1) } := by
      rw [hdb2, getUserStats_incrementUserStats_self, hdb1,
        getUserStats_updateUserBalance_self, getUserStats_deleteBet, hu]
      rfl
    have hline2 : db2.getBettingLine lid = some line := by
      rw [hdb2, getBettingLine_incrementUserStats, hdb1,
        getBettingLine_updateUserBalance, getBettingLine_deleteBet, hline]
    have hnotlt : ¬(user.balance + eb.amount < 1) := by omega
    have hst : (line.status != LineStatus.open) = false := by
      simp [hopen]
    simp only [placeBetChecked, hu2, hline2, if_neg hnotlt, hst,
      Bool.false_eq_true, if_false, ite_false, DB.insertBet]
    exact ⟨_, rfl, rfl⟩

/-- Witness for the C5 theorem at the zero-balance switcher state. -/
theorem placeBet_balance_check_after_retirement_witness :
    brokeSwitcherDB.getUserStats "user-0" = some
      { id := "user-0", slack_user_id := "slack-m1", username := "M1",
        balance := 0, total_bets := 1, total_winnings := 0 } ∧
    ((brokeSwitcherDB.getUserBetOnLine "user-0" "line-0" = none →
        (0 : Int) < 1 → True) ∧
      (∀ eb, brokeSwitcherDB.getUserBetOnLine "user-0" "line-0" = some eb →
        eb.option ≠ "under" → 1 ≤ eb.amount → (0 : Int) ≤ 0 →
        ∀ line, brokeSwitcherDB.getBettingLine "line-0" = some line →
        line.status = .open →
        ∃ bet, (placeBet brokeSwitcherDB "user-0" "line-0" "under").2
            = Except.ok bet ∧ bet.option = "under")) := by
  refine ⟨by decide, fun _ _ => trivial, ?_⟩
  have h := placeBet_balance_check_after_retirement brokeSwitcherDB
    "user-0" "line-0" "under"
    { id := "user-0", slack_user_id := "slack-m1", username := "M1",
      balance := 0, total_bets := 1, total_winnings := 0 } (by decide)
  intro eb hbet hdiff hamt _ line hline hopen
  exact h.2 eb hbet hdiff hamt (by decide) line hline hopen

/-! ## C8: the signal-removed reconciliation -/

/-- C8: a signal-removed event retires the member's stake on the line
and refunds the stake amount — the bet row is deleted, the balance is
increased by the stake amount, and the stake count is decremented —
exactly when the line is open, the removed symbol decodes to an option
of the line, the member has a stake on that line, and that stake's
option equals the decoded option; in every other case the event is a
no-op with no state change. -/
theorem handleReactionRemoved_spec
    (db : DB) (lineId slackUser reaction : String) (line : Line) (u : Member)
    (hline : db.getBettingLine lineId = some line)
    (hu : db.getUserBySlackId slackUser = some u) :
    (∀ idx opt bet,
      line.status = .open →
      line.emojis.findIdx? (fun e => e == reactionToEmoji reaction) = some idx →
      line.options.get? idx = some opt →
      db.getUserBetOnLine u.id lineId = some bet →
      bet.option = opt →
      handleReactionRemoved db lineId slackUser reaction
        = (((db.deleteBet bet.id).updateUserBalance u.id
              (u.balance + bet.amount)).incrementUserStats u.id .total_bets (-1),
           .removed opt)) ∧
    (specRemovalConditions db line u.id (reactionToEmoji reaction) = false →
      handleReactionRemoved db lineId slackUser reaction = (db, .ignored)) := by
  have hid : line.id = lineId := by
    have h0 : db.lines.find? (fun l => l.id == lineId) = some line := hline
    have := List.find?_some h0
    simpa using this
  constructor
  · intro idx opt bet hopen hidx hopt hbet hmatch
    have hst : (line.status != LineStatus.open) = false := by simp [hopen]
    have hne : (bet.option != opt) = false := by simp [hmatch]
    simp only [handleReactionRemoved, hline, hst, Bool.false_eq_true, if_false,
      ite_false, hu, hbet, hidx, hopt, hne]
  · intro hcond
    by_cases hopen : line.status = .open
    · have hst : (line.status != LineStatus.open) = false := by simp [hopen]
      simp only [handleReactionRemoved, hline, hst, Bool.false_eq_true, if_false,
        ite_false, hu]
      cases hbet : db.getUserBetOnLine u.id lineId with
      | none => simp [hbet]
      | some bet =>
        cases hidx : line.emojis.findIdx? (fun e => e == reactionToEmoji reaction) with
        | none => simp [hbet, hidx]
        | some idx =>
          cases hopt : line.options.get? idx with
          | none =>
            have hopt2 : line.options[idx]? = none := by
              rw [← List.get?_eq_getElem?]; exact hopt
            simp [hbet, hidx, hopt2]
          | some opt =>
            have hopt2 : line.options[idx]? = some opt := by
              rw [← List.get?_eq_getElem?]; exact hopt
            cases hne : (bet.option != opt) with
            | true =>
              have hne2 : ¬(bet.option = opt) := by simpa using hne
              simp [hbet, hidx, hopt2, hne2]
            | false =>
              exfalso
              have hmatch : (bet.option == opt) = true := by
                cases hbo : bet.option == opt with
                | true => rfl
                | false => rw [bne, hbo] at hne; exact Bool.noConfusion hne
              have : specRemovalConditions db line u.id (reactionToEmoji reaction)
                  = true := by
                simp only [specRemovalConditions, hopen, hidx, hopt, hid, hbet,
                  hmatch]
                rfl
              rw [this] at hcond
              exact Bool.noConfusion hcond
    · have hst : (line.status != LineStatus.open) = true := by
        simpa using hopen
      simp only [handleReactionRemoved, hline, hst, if_true, ite_true]

/-- Witness for the C8 theorem: M2 removes the "under" signal on the
open staked scenario line, which retires the stake and refunds it. -/
theorem handleReactionRemoved_spec_witness :
    demoStakedDB.getBettingLine "line-0" = some demoLine0 ∧
    demoStakedDB.getUserBySlackId "slack-m2" = some
      { id := "user-1", slack_user_id := "slack-m2", username := "M2",
        balance := 19, total_bets := 1, total_winnings := 0 } ∧
    ((∀ idx opt bet,
      demoLine0.status = .open →
      demoLine0.emojis.findIdx?
          (fun e => e == reactionToEmoji "chart_with_downwards_trend") = some idx →
      demoLine0.options.get? idx = some opt →
      demoStakedDB.getUserBetOnLine "user-1" "line-0" = some bet →
      bet.option = opt →
      handleReactionRemoved demoStakedDB "line-0" "slack-m2"
          "chart_with_downwards_trend"
        = (((demoStakedDB.deleteBet bet.id).updateUserBalance "user-1"
              ((19 : Int) + bet.amount)).incrementUserStats "user-1"
              .total_bets (-1),
           .removed opt)) ∧
    (specRemovalConditions demoStakedDB demoLine0 "user-1"
        (reactionToEmoji "chart_with_downwards_trend") = false →
      handleReactionRemoved demoStakedDB "line-0" "slack-m2"
          "chart_with_downwards_trend" = (demoStakedDB, .ignored))) :=
  ⟨by decide, by decide,
    handleReactionRemoved_spec demoStakedDB "line-0" "slack-m2"
      "chart_with_downwards_trend" demoLine0
      { id := "user-1", slack_user_id := "slack-m2", username := "M2",
        balance := 19, total_bets := 1, total_winnings := 0 }
      (by decide) (by decide)⟩

/-! ## C10: placeBet accepts an arbitrary option string -/

/-- The validated insert (the tail of `placeBet`) accepts an arbitrary
option string on an open line for a member with balance ≥ 1, and the
created stake is then a losing stake of `calculatePayouts` for every
winning option different from it. -/
theorem placeBetChecked_accepts_any_option
    (db : DB) (uid lid o : String) (user : Member) (line : Line)
    (hu : db.getUserStats uid = some user)
    (hbal : 1 ≤ user.balance)
    (hline : db.getBettingLine lid = some line)
    (hopen : line.status = .open) :
    ∃ bet, (placeBetChecked db uid lid o).2 = Except.ok bet ∧
      bet.option = o ∧
      (∀ w, w ≠ o →
        ∃ row, row ∈ ((placeBetChecked db uid lid o).1.getBetsForLine lid).filter
            (fun b => b.option != w) ∧
          row.id = bet.id ∧ row.user_id = uid ∧ row.option = o ∧ row.amount = 1 ∧
          ∃ pd, calculatePayouts (placeBetChecked db uid lid o).1 lid w = .ok pd ∧
            pd.totalPot = (((placeBetChecked db uid lid o).1.getBetsForLine lid).filter
              (fun b => b.option != w) |>.map (fun b => b.amount)).sum) := by
  have hnotlt : ¬(user.balance < 1) := by omega
  have hst : (line.status != LineStatus.open) = false := by simp [hopen]
  have hplace : placeBetChecked db uid lid o
      = ((((db.updateUserBalance uid (user.balance - 1)).incrementUserStats uid
            .total_bets 1).insertBet uid lid o).1,
         Except.ok ((((db.updateUserBalance uid (user.balance - 1)).incrementUserStats
            uid .total_bets 1).insertBet uid lid o).2)) := by
    simp only [placeBetChecked, hu, if_neg hnotlt, hline, hst,
      Bool.false_eq_true, if_false, ite_false]
  set db2 := (db.updateUserBalance uid (user.balance - 1)).incrementUserStats uid
    .total_bets 1 with hdb2
  have hbet2 : (db2.insertBet uid lid o).2
      = { id := "bet-" ++ toString db2.nextBetId, user_id := uid, line_id := lid,
          option := o, amount := 1 } := rfl
  refine ⟨(db2.insertBet uid lid o).2, by rw [hplace], by rw [hbet2], ?_⟩
  intro w hw
  -- the updated member record seen by the join
  have hu2 : db2.getUserStats uid = some
      { user with balance := user.balance - 1,
                  total_bets := user.total_bets + 1 } := by
    rw [hdb2, getUserStats_incrementUserStats_self,
      getUserStats_updateUserBalance_self, hu]
    rfl
  set row : BetRow :=
    { id := "bet-" ++ toString db2.nextBetId, user_id := uid, line_id := lid,
      option := o, amount := 1, username := user.username } with hrow
  have hjoinmem : row ∈ ((db2.insertBet uid lid o).1).getBetsForLine lid := by
    unfold DB.getBetsForLine
    apply List.mem_filterMap.mpr
    refine ⟨(db2.insertBet uid lid o).2, ?_, ?_⟩
    · apply List.mem_filter.mpr
      constructor
      · show (db2.insertBet uid lid o).2 ∈ db2.bets ++ [(db2.insertBet uid lid o).2]
        exact List.mem_append_right _ (List.mem_singleton.mpr rfl)
      · simp [hbet2]
    · show ((db2.getUserStats uid).map _) = some row
      rw [hu2]
      simp [hbet2, hrow]
  have hfiltermem : row ∈ (((db2.insertBet uid lid o).1).getBetsForLine lid).filter
      (fun b => b.option != w) := by
    apply List.mem_filter.mpr
    refine ⟨hjoinmem, ?_⟩
    simp [hrow]
    exact fun h => hw h.symm
  have hline3 : ((db2.insertBet uid lid o).1).getBettingLine lid = some line := hline
  have hfs := losing_foldl_eq_filter_sum (((db2.insertBet uid lid o).1).getBetsForLine lid) w
  have hlnon : ((losingBetsOf (((db2.insertBet uid lid o).1).getBetsForLine lid) w).length
      == 0) = false := by
    have hperm := losingBetsOf_perm (((db2.insertBet uid lid o).1).getBetsForLine lid) w
    have hpos : 0 < ((((db2.insertBet uid lid o).1).getBetsForLine lid).filter
        (fun b => b.option != w)).length :=
      List.length_pos.mpr (List.ne_nil_of_mem hfiltermem)
    rw [hperm.length_eq]
    simp only [beq_eq_false_iff_ne, ne_eq]
    omega
  refine ⟨row, by rw [hplace]; exact hfiltermem, rfl, rfl, rfl, rfl, ?_⟩
  rw [hplace]
  by_cases hwz : ((betsWithOption (((db2.insertBet uid lid o).1).getBetsForLine lid) w).length
      == 0) = true
  · exact ⟨{ payouts := []
             totalPot := (losingBetsOf (((db2.insertBet uid lid o).1).getBetsForLine lid)
               w).foldl (fun sum bet => sum + bet.amount) 0
             payoutPerWinner := none
             remainder := none
             message := "No one bet on the winning option. Pot retained by the bot." },
           by simp only [calculatePayouts, hline3, hwz, if_true, ite_true],
           hfs⟩
  · have hwz2 : ((betsWithOption (((db2.insertBet uid lid o).1).getBetsForLine lid) w).length
        == 0) = false := by
      cases h2 : ((betsWithOption (((db2.insertBet uid lid o).1).getBetsForLine lid) w).length
          == 0) with
      | true => exact absurd h2 hwz
      | false => rfl
    exact ⟨{ payouts := (betsWithOption (((db2.insertBet uid lid o).1).getBetsForLine lid)
               w).map (fun bet =>
                { userId := bet.user_id
                  username := bet.username
                  payout := Int.fdiv
                    ((losingBetsOf (((db2.insertBet uid lid o).1).getBetsForLine lid)
                      w).foldl (fun sum bet => sum + bet.amount) 0)
                    (betsWithOption (((db2.insertBet uid lid o).1).getBetsForLine lid)
                      w).length
                  originalBet := bet.amount })
             totalPot := (losingBetsOf (((db2.insertBet uid lid o).1).getBetsForLine lid)
               w).foldl (fun sum bet => sum + bet.amount) 0
             payoutPerWinner := some (Int.fdiv
               ((losingBetsOf (((db2.insertBet uid lid o).1).getBetsForLine lid)
                 w).foldl (fun sum bet => sum + bet.amount) 0)
               (betsWithOption (((db2.insertBet uid lid o).1).getBetsForLine lid)
                 w).length)
             remainder := some (Int.tmod
               ((losingBetsOf (((db2.insertBet uid lid o).1).getBetsForLine lid)
                 w).foldl (fun sum bet => sum + bet.amount) 0)
               (betsWithOption (((db2.insertBet uid lid o).1).getBetsForLine lid)
                 w).length)
             message := "Winners receive " ++ toString (Int.fdiv
                 ((losingBetsOf (((db2.insertBet uid lid o).1).getBetsForLine lid)
                   w).foldl (fun sum bet => sum + bet.amount) 0)
                 (betsWithOption (((db2.insertBet uid lid o).1).getBetsForLine lid)
                   w).length) ++
               " units each. " ++ toString (Int.tmod
                 ((losingBetsOf (((db2.insertBet uid lid o).1).getBetsForLine lid)
                   w).foldl (fun sum bet => sum + bet.amount) 0)
                 (betsWithOption (((db2.insertBet uid lid o).1).getBetsForLine lid)
                   w).length) ++
               " units remain in bot pool." },
           by simp only [calculatePayouts, hline3, hwz2, hlnon, Bool.false_eq_true,
             if_false, ite_false],
           hfs⟩

/-- C10: `placeBet` never checks its option argument against the line's
options.  For every open line and every member with balance ≥ 1 and no
existing same-option stake — the member may hold no stake at all, or a
stake on any different option (of non-negative amount, as all stored
stakes have amount 1) — `placeBet` succeeds for an arbitrary option
string (no membership hypothesis about `o` appears below), and
`calculatePayouts` then counts the created stake among the losing stakes
— a row for it (amount 1) sits in the losing filter and the computed pot
is exactly the sum of that filter's amounts — for every winning option
different from `o`. -/
theorem placeBet_accepts_arbitrary_option
    (db : DB) (uid lid o : String) (user : Member) (line : Line)
    (hu : db.getUserStats uid = some user)
    (hbal : 1 ≤ user.balance)
    (hnosame : ∀ eb, db.getUserBetOnLine uid lid = some eb → eb.option ≠ o)
    (hamt : ∀ b ∈ db.bets, 0 ≤ b.amount)
    (hline : db.getBettingLine lid = some line)
    (hopen : line.status = .open) :
    ∃ bet, (placeBet db uid lid o).2 = Except.ok bet ∧
      bet.option = o ∧
      (∀ w, w ≠ o →
        ∃ row, row ∈ ((placeBet db uid lid o).1.getBetsForLine lid).filter
            (fun b => b.option != w) ∧
          row.id = bet.id ∧ row.user_id = uid ∧ row.option = o ∧ row.amount = 1 ∧
          ∃ pd, calculatePayouts (placeBet db uid lid o).1 lid w = .ok pd ∧
            pd.totalPot = (((placeBet db uid lid o).1.getBetsForLine lid).filter
              (fun b => b.option != w) |>.map (fun b => b.amount)).sum) := by
  cases hb : db.getUserBetOnLine uid lid with
  | none =>
    have heq : placeBet db uid lid o = placeBetChecked db uid lid o := by
      simp only [placeBet, hb]
    rw [heq]
    exact placeBetChecked_accepts_any_option db uid lid o user line hu hbal
      hline hopen
  | some eb =>
    have hdiff : eb.option ≠ o := hnosame eb hb
    have hne : (eb.option == o) = false := by simpa using hdiff
    have hebamt : 0 ≤ eb.amount := hamt eb (List.mem_of_find?_eq_some hb)
    have heq : placeBet db uid lid o
        = placeBetChecked (((db.deleteBet eb.id).updateUserBalance uid
            (user.balance + eb.amount)).incrementUserStats uid .total_bets (-1))
          uid lid o := by
      simp only [placeBet, hb, hne, Bool.false_eq_true, if_false, ite_false]
      rw [getUserStats_deleteBet, hu]
    rw [heq]
    have hu3 : (((db.deleteBet eb.id).updateUserBalance uid
        (user.balance + eb.amount)).incrementUserStats uid
          .total_bets (-1)).getUserStats uid
        = some { user with balance := user.balance + eb.amount,
                           total_bets := user.total_bets + (-1) } := by
      rw [getUserStats_incrementUserStats_self, getUserStats_updateUserBalance_self,
        getUserStats_deleteBet, hu]
      rfl
    have hline3 : (((db.deleteBet eb.id).updateUserBalance uid
        (user.balance + eb.amount)).incrementUserStats uid
          .total_bets (-1)).getBettingLine lid = some line := by
      rw [getBettingLine_incrementUserStats, getBettingLine_updateUserBalance,
        getBettingLine_deleteBet, hline]
    exact placeBetChecked_accepts_any_option _ uid lid o _ line hu3
      (by show (1 : Int) ≤ user.balance + eb.amount; omega) hline3 hopen

/-- Witness for the C10 theorem: M1, already holding a stake on "over",
stakes the string "banana", which is not an option of the over/under
line; the existing different-option stake is retired and the arbitrary
stake is accepted. -/
theorem placeBet_accepts_arbitrary_option_witness :
    demoStakedDB.getUserStats "user-0" = some
      { id := "user-0", slack_user_id := "slack-m1", username := "M1",
        balance := 19, total_bets := 1, total_winnings := 0 } ∧
    (1 : Int) ≤ 19 ∧
    (∀ eb, demoStakedDB.getUserBetOnLine "user-0" "line-0" = some eb →
      eb.option ≠ "banana") ∧
    (∀ b ∈ demoStakedDB.bets, 0 ≤ b.amount) ∧
    demoStakedDB.getBettingLine "line-0" = some demoLine0 ∧
    demoLine0.status = .open ∧
    (∃ bet, (placeBet demoStakedDB "user-0" "line-0" "banana").2 = Except.ok bet ∧
      bet.option = "banana" ∧
      (∀ w, w ≠ "banana" →
        ∃ row, row ∈ ((placeBet demoStakedDB "user-0" "line-0" "banana").1.getBetsForLine
            "line-0").filter (fun b => b.option != w) ∧
          row.id = bet.id ∧ row.user_id = "user-0" ∧ row.option = "banana" ∧
          row.amount = 1 ∧
          ∃ pd, calculatePayouts (placeBet demoStakedDB "user-0" "line-0" "banana").1
              "line-0" w = .ok pd ∧
            pd.totalPot = (((placeBet demoStakedDB "user-0" "line-0" "banana").1.getBetsForLine
              "line-0").filter (fun b => b.option != w)
              |>.map (fun b => b.amount)).sum)) := by
  have hnosame : ∀ eb, demoStakedDB.getUserBetOnLine "user-0" "line-0" = some eb →
      eb.option ≠ "banana" := by
    intro eb heb
    have h0 : demoStakedDB.getUserBetOnLine "user-0" "line-0" = some
        { id := "bet-0", user_id := "user-0", line_id := "line-0",
          option := "over", amount := 1 } := by decide
    rw [h0] at heb
    obtain rfl := Option.some.inj heb
    decide
  exact ⟨by decide, by decide, hnosame, by decide, by decide, rfl,
    placeBet_accepts_arbitrary_option demoStakedDB "user-0" "line-0" "banana"
      { id := "user-0", slack_user_id := "slack-m1", username := "M1",
        balance := 19, total_bets := 1, total_winnings := 0 }
      demoLine0 (by decide) (by decide) hnosame (by decide) (by decide) rfl⟩

/-! ## C6: at most one stake per (member, line) -/

theorem stakeRel_symm : Symmetric
    (fun (b1 b2 : Bet) => ¬(b1.user_id = b2.user_id ∧ b1.line_id = b2.line_id)) := by
  intro a b hab hba
  exact hab ⟨hba.1.symm, hba.2.symm⟩

/-- After deleting the bet that `getUserBetOnLine` found, no bet of that
(member, line) pair remains. -/
theorem no_pair_after_delete (db : DB) (uid lid : String) (eb : Bet)
    (h : uniqueStakes db)
    (hb : db.getUserBetOnLine uid lid = some eb) :
    ∀ b ∈ (db.deleteBet eb.id).bets, ¬(b.user_id = uid ∧ b.line_id = lid) := by
  intro b hbmem hc
  have h' : List.Pairwise
      (fun (b1 b2 : Bet) => ¬(b1.user_id = b2.user_id ∧ b1.line_id = b2.line_id))
      db.bets := h
  have hbmem2 : b ∈ db.bets := (List.mem_filter.mp hbmem).1
  have hbid : (b.id != eb.id) = true := (List.mem_filter.mp hbmem).2
  have hmem_eb : eb ∈ db.bets := List.mem_of_find?_eq_some hb
  have hpred := List.find?_some hb
  have heb : eb.user_id = uid ∧ eb.line_id = lid := by simpa using hpred
  by_cases hbe : b = eb
  · subst hbe
    simp at hbid
  · exact List.Pairwise.forall stakeRel_symm h' hbmem2 hmem_eb hbe
      ⟨hc.1.trans heb.1.symm, hc.2.trans heb.2.symm⟩

/-- The validated insert preserves the at-most-one invariant, provided
no stake of the (member, line) pair is present. -/
theorem uniqueStakes_placeBetChecked (db : DB) (uid lid o : String)
    (h : uniqueStakes db)
    (hnone : ∀ b ∈ db.bets, ¬(b.user_id = uid ∧ b.line_id = lid)) :
    uniqueStakes (placeBetChecked db uid lid o).1 := by
  unfold placeBetChecked
  split
  · exact h
  · split
    · exact h
    · split
      · exact h
      · split
        · exact h
        · show List.Pairwise _ (db.bets ++
            [{ id := "bet-" ++ toString db.nextBetId, user_id := uid,
               line_id := lid, option := o, amount := 1 }])
          rw [List.pairwise_append]
          refine ⟨h, List.pairwise_singleton _ _, ?_⟩
          intro a ha b hbmem
          rw [List.mem_singleton] at hbmem
          subst hbmem
          exact hnone a ha

/-- `placeBet` preserves the at-most-one-stake-per-(member, line)
invariant: a same-option duplicate is rejected, and a different-option
stake is placed only after the previous stake of the pair is deleted. -/
theorem uniqueStakes_placeBet (db : DB) (uid lid o : String)
    (h : uniqueStakes db) : uniqueStakes (placeBet db uid lid o).1 := by
  have h' : List.Pairwise
      (fun (b1 b2 : Bet) => ¬(b1.user_id = b2.user_id ∧ b1.line_id = b2.line_id))
      db.bets := h
  cases hb : db.getUserBetOnLine uid lid with
  | some eb =>
    have hdel : uniqueStakes (db.deleteBet eb.id) := List.Pairwise.filter _ h'
    have hnone := no_pair_after_delete db uid lid eb h hb
    cases heq : (eb.option == o) with
    | true =>
      simp only [placeBet, hb, heq, if_true, ite_true]
      exact h
    | false =>
      simp only [placeBet, hb, heq, Bool.false_eq_true, if_false, ite_false]
      cases hu : (db.deleteBet eb.id).getUserStats uid with
      | none =>
        simp only [hu]
        exact hdel
      | some user =>
        simp only [hu]
        exact uniqueStakes_placeBetChecked _ uid lid o hdel hnone
  | none =>
    simp only [placeBet, hb]
    apply uniqueStakes_placeBetChecked db uid lid o h
    intro b hbmem hmatch
    have hfalse := List.find?_eq_none.mp hb b hbmem
    apply hfalse
    simp [hmatch.1, hmatch.2]

theorem bets_ensureUser (db : DB) (su un : String) :
    (ensureUser db su un).1.bets = db.bets := by
  unfold ensureUser
  cases db.getUserBySlackId su <;> rfl

theorem uniqueStakes_ensureUser (db : DB) (su un : String)
    (h : uniqueStakes db) : uniqueStakes (ensureUser db su un).1 := by
  unfold uniqueStakes
  rw [bets_ensureUser]
  exact h

/-- The tail of `handleReactionAdded` after a member is ensured: both
outcomes of `placeBet` carry its first component. -/
theorem uniqueStakes_addTail (db1 : DB) (uidd lid opt : String)
    (h1 : uniqueStakes db1) :
    uniqueStakes ((match placeBet db1 uidd lid opt with
      | (db2, Except.ok _bet) => (db2, AddOutcome.confirmed opt)
      | (db2, Except.error msg) => (db2, AddOutcome.betError msg)).1) := by
  have h2 := uniqueStakes_placeBet db1 uidd lid opt h1
  rcases hp : placeBet db1 uidd lid opt with ⟨db2, res⟩
  rw [hp] at h2
  cases res <;> exact h2

theorem uniqueStakes_reactionAdded (db : DB) (l su un r : String)
    (h : uniqueStakes db) :
    uniqueStakes (handleReactionAdded db l su un r).1 := by
  cases hline : db.getBettingLine l with
  | none =>
    simp only [handleReactionAdded, hline]
    exact h
  | some line =>
    cases hst : (line.status != LineStatus.open) with
    | true =>
      simp only [handleReactionAdded, hline, hst, if_true, ite_true]
      exact h
    | false =>
      simp only [handleReactionAdded, hline, hst, Bool.false_eq_true, if_false,
        ite_false]
      cases hidx : line.emojis.findIdx? (fun e => e == reactionToEmoji r) with
      | none =>
        simp only [hidx]
        exact h
      | some idx =>
        simp only [hidx]
        cases hopt : line.options.get? idx with
        | none =>
          simp only [hopt]
          exact h
        | some opt =>
          simp only [hopt]
          show uniqueStakes ((match placeBet (ensureUser db su un).1
              (ensureUser db su un).2.id line.id opt with
            | (db2, Except.ok _bet) => (db2, AddOutcome.confirmed opt)
            | (db2, Except.error msg) => (db2, AddOutcome.betError msg)).1)
          exact uniqueStakes_addTail _ _ _ _ (uniqueStakes_ensureUser db su un h)

theorem uniqueStakes_reactionRemoved (db : DB) (l su r : String)
    (h : uniqueStakes db) :
    uniqueStakes (handleReactionRemoved db l su r).1 := by
  have h' : List.Pairwise
      (fun (b1 b2 : Bet) => ¬(b1.user_id = b2.user_id ∧ b1.line_id = b2.line_id))
      db.bets := h
  cases hline : db.getBettingLine l with
  | none =>
    simp only [handleReactionRemoved, hline]
    exact h
  | some line =>
    cases hst : (line.status != LineStatus.open) with
    | true =>
      simp only [handleReactionRemoved, hline, hst, if_true, ite_true]
      exact h
    | false =>
      simp only [handleReactionRemoved, hline, hst, Bool.false_eq_true, if_false,
        ite_false]
      cases hu : db.getUserBySlackId su with
      | none =>
        simp only [hu]
        exact h
      | some dbUser =>
        simp only [hu]
        cases hb : db.getUserBetOnLine dbUser.id l with
        | none =>
          simp only [hb]
          exact h
        | some userBet =>
          simp only [hb]
          cases hidx : line.emojis.findIdx? (fun e => e == reactionToEmoji r) with
          | none =>
            simp only [hidx]
            exact h
          | some idx =>
            simp only [hidx]
            cases hopt : line.options.get? idx with
            | none =>
              simp only [hopt]
              exact h
            | some opt =>
              simp only [hopt]
              cases hne : (userBet.option != opt) with
              | true =>
                simp only [hne, if_true, ite_true]
                exact h
              | false =>
                simp only [hne, Bool.false_eq_true, if_false, ite_false]
                exact List.Pairwise.filter _ h'

theorem bets_creditWinner (db : DB) (p : PayoutEntry) :
    (creditWinner db p).bets = db.bets := by
  unfold creditWinner
  cases db.getUserStats p.userId <;> rfl

theorem bets_foldl_creditWinner (ps : List PayoutEntry) (db : DB) :
    (ps.foldl creditWinner db).bets = db.bets := by
  induction ps generalizing db with
  | nil => rfl
  | cons p t ih => rw [List.foldl_cons, ih, bets_creditWinner]

theorem bets_debitLoser (db : DB) (bet : BetRow) :
    (debitLoser db bet).bets = db.bets := by
  unfold debitLoser
  cases db.getUserStats bet.user_id <;> rfl

theorem bets_foldl_debitLoser (bs : List BetRow) (db : DB) :
    (bs.foldl debitLoser db).bets = db.bets := by
  induction bs generalizing db with
  | nil => rfl
  | cons b t ih => rw [List.foldl_cons, ih, bets_debitLoser]

theorem bets_processPayouts (db : DB) (l w : String) :
    (processPayouts db l w).1.bets = db.bets := by
  unfold processPayouts
  cases hc : calculatePayouts db l w with
  | error e => rfl
  | ok pd =>
    rw [bets_foldl_debitLoser, bets_foldl_creditWinner]

theorem bets_handleResolveLine (db : DB) (l w : String) :
    (handleResolveLine db l w).1.bets = db.bets := by
  cases hline : db.getBettingLine l with
  | none => simp only [handleResolveLine, hline]
  | some line =>
    cases hin : (!(line.options.contains w)) with
    | true => simp only [handleResolveLine, hline, hin, if_true, ite_true]
    | false =>
      simp only [handleResolveLine, hline, hin, Bool.false_eq_true, if_false,
        ite_false]
      rcases hp : processPayouts db l w with ⟨db1, res⟩
      have h1 : db1.bets = db.bets := by
        have h0 := bets_processPayouts db l w
        rw [hp] at h0
        exact h0
      cases res with
      | error msg => exact h1
      | ok pd => exact h1

theorem bets_handleLockLine (db : DB) (l : String) :
    (handleLockLine db l).1.bets = db.bets := by
  cases hline : db.getBettingLine l with
  | none => simp only [handleLockLine, hline]
  | some line =>
    cases hst : (line.status != LineStatus.open) with
    | true => simp only [handleLockLine, hline, hst, if_true, ite_true]
    | false =>
      simp only [handleLockLine, hline, hst, Bool.false_eq_true, if_false,
        ite_false]
      rfl

/-- C6: every sequence of external events — in particular every sequence
of signal-added and signal-removed events — preserves the invariant that
the bets store holds at most one stake row per (member, line) pair:
placing on a new option first deletes the member's previous stake on the
line, and placing on the same option is rejected. -/
theorem uniqueStakes_run (db : DB) (events : List Event)
    (h : uniqueStakes db) : uniqueStakes (run db events) := by
  induction events generalizing db with
  | nil => exact h
  | cons e t ih =>
    apply ih
    cases e with
    | reactionAdded l su un r => exact uniqueStakes_reactionAdded db l su un r h
    | reactionRemoved l su r => exact uniqueStakes_reactionRemoved db l su r h
    | lockLine l =>
      unfold uniqueStakes
      rw [show (step db (.lockLine l)).bets = db.bets from bets_handleLockLine db l]
      exact h
    | resolveLine l w =>
      unfold uniqueStakes
      rw [show (step db (.resolveLine l w)).bets = db.bets from
        bets_handleResolveLine db l w]
      exact h

/-- Witness for the C6 theorem: the staked scenario store satisfies the
invariant, and it still holds after a switch, a removal, and a resolve. -/
theorem uniqueStakes_run_witness :
    uniqueStakes demoStakedDB ∧
    uniqueStakes (run demoStakedDB
      [.reactionAdded "line-0" "slack-m1" "M1" "chart_with_downwards_trend",
       .reactionRemoved "line-0" "slack-m2" "chart_with_downwards_trend",
       .resolveLine "line-0" "under"]) :=
  ⟨by decide,
    uniqueStakes_run demoStakedDB
      [.reactionAdded "line-0" "slack-m1" "M1" "chart_with_downwards_trend",
       .reactionRemoved "line-0" "slack-m2" "chart_with_downwards_trend",
       .resolveLine "line-0" "under"] (by decide)⟩

/-! ## C7: balances never go negative -/

theorem nonnegState_iff (db : DB) :
    nonnegState db = true ↔
      (∀ u ∈ db.users, 0 ≤ u.balance) ∧ (∀ b ∈ db.bets, 0 ≤ b.amount) := by
  simp [nonnegState, List.all_eq_true]

theorem nonnegState_updateUserBalance (db : DB) (uid : String) (nb : Int)
    (h : nonnegState db = true) (hnb : 0 ≤ nb) :
    nonnegState (db.updateUserBalance uid nb) = true := by
  rw [nonnegState_iff] at h
  rw [nonnegState_iff]
  refine ⟨?_, h.2⟩
  intro u hu
  have hu2 : u ∈ db.users.map
      (fun v => if v.id == uid then { v with balance := nb } else v) := hu
  obtain ⟨v, hv, rfl⟩ := List.mem_map.mp hu2
  by_cases hid : (v.id == uid) = true
  · rw [if_pos hid]
    exact hnb
  · rw [if_neg hid]
    exact h.1 v hv

theorem nonnegState_incrementUserStats (db : DB) (uid : String) (f : StatField)
    (a : Int) (h : nonnegState db = true) :
    nonnegState (db.incrementUserStats uid f a) = true := by
  rw [nonnegState_iff] at h
  rw [nonnegState_iff]
  refine ⟨?_, h.2⟩
  intro u hu
  cases f with
  | total_bets =>
    have hu2 : u ∈ db.users.map
        (fun v => if v.id == uid then { v with total_bets := v.total_bets + a }
          else v) := hu
    obtain ⟨v, hv, rfl⟩ := List.mem_map.mp hu2
    by_cases hid : (v.id == uid) = true
    · rw [if_pos hid]
      exact h.1 v hv
    · rw [if_neg hid]
      exact h.1 v hv
  | total_winnings =>
    have hu2 : u ∈ db.users.map
        (fun v => if v.id == uid then
          { v with total_winnings := v.total_winnings + a } else v) := hu
    obtain ⟨v, hv, rfl⟩ := List.mem_map.mp hu2
    by_cases hid : (v.id == uid) = true
    · rw [if_pos hid]
      exact h.1 v hv
    · rw [if_neg hid]
      exact h.1 v hv

theorem nonnegState_deleteBet (db : DB) (i : String)
    (h : nonnegState db = true) :
    nonnegState (db.deleteBet i) = true := by
  rw [nonnegState_iff] at h
  rw [nonnegState_iff]
  refine ⟨h.1, ?_⟩
  intro b hb
  exact h.2 b (List.mem_filter.mp hb).1

theorem nonnegState_insertBet (db : DB) (uid lid o : String)
    (h : nonnegState db = true) :
    nonnegState (db.insertBet uid lid o).1 = true := by
  rw [nonnegState_iff] at h
  rw [nonnegState_iff]
  refine ⟨h.1, ?_⟩
  intro b hb
  have hb2 : b ∈ db.bets ++
      [{ id := "bet-" ++ toString db.nextBetId, user_id := uid, line_id := lid,
         option := o, amount := 1 }] := hb
  rcases List.mem_append.mp hb2 with hold | hnew
  · exact h.2 b hold
  · rw [List.mem_singleton] at hnew
    subst hnew
    show (0 : Int) ≤ 1
    decide

theorem nonnegState_createUser (db : DB) (su un : String)
    (h : nonnegState db = true) :
    nonnegState (db.createUser su un).1 = true := by
  rw [nonnegState_iff] at h
  rw [nonnegState_iff]
  refine ⟨?_, h.2⟩
  intro u hu
  have hu2 : u ∈ db.users ++
      [{ id := "user-" ++ toString db.nextUserId, slack_user_id := su,
         username := un, balance := 20, total_bets := 0,
         total_winnings := 0 }] := hu
  rcases List.mem_append.mp hu2 with hold | hnew
  · exact h.1 u hold
  · rw [List.mem_singleton] at hnew
    subst hnew
    show (0 : Int) ≤ 20
    decide

theorem nonnegState_ensureUser (db : DB) (su un : String)
    (h : nonnegState db = true) :
    nonnegState (ensureUser db su un).1 = true := by
  unfold ensureUser
  cases db.getUserBySlackId su with
  | none => exact nonnegState_createUser db su un h
  | some u => exact h

theorem nonnegState_placeBetChecked (db : DB) (uid lid o : String)
    (h : nonnegState db = true) :
    nonnegState (placeBetChecked db uid lid o).1 = true := by
  cases hu : db.getUserStats uid with
  | none =>
    simp only [placeBetChecked, hu]
    exact h
  | some user =>
    by_cases hlt : user.balance < 1
    · simp only [placeBetChecked, hu, if_pos hlt]
      exact h
    · simp only [placeBetChecked, hu, if_neg hlt]
      cases hl : db.getBettingLine lid with
      | none =>
        simp only [hl]
        exact h
      | some line =>
        simp only [hl]
        cases hst : (line.status != LineStatus.open) with
        | true =>
          simp only [hst, if_true, ite_true]
          exact h
        | false =>
          simp only [hst, Bool.false_eq_true, if_false, ite_false]
          have h1 := nonnegState_updateUserBalance db uid (user.balance - 1) h
            (by omega)
          have h2 := nonnegState_incrementUserStats _ uid .total_bets 1 h1
          exact nonnegState_insertBet _ uid lid o h2

theorem nonnegState_placeBet (db : DB) (uid lid o : String)
    (h : nonnegState db = true) :
    nonnegState (placeBet db uid lid o).1 = true := by
  cases hb : db.getUserBetOnLine uid lid with
  | none =>
    simp only [placeBet, hb]
    exact nonnegState_placeBetChecked db uid lid o h
  | some eb =>
    have hebamt : 0 ≤ eb.amount :=
      ((nonnegState_iff db).mp h).2 eb (List.mem_of_find?_eq_some hb)
    cases heq : (eb.option == o) with
    | true =>
      simp only [placeBet, hb, heq, if_true, ite_true]
      exact h
    | false =>
      simp only [placeBet, hb, heq, Bool.false_eq_true, if_false, ite_false]
      have hdel : nonnegState (db.deleteBet eb.id) = true :=
        nonnegState_deleteBet db eb.id h
      cases hu : (db.deleteBet eb.id).getUserStats uid with
      | none =>
        simp only [hu]
        exact hdel
      | some user =>
        simp only [hu]
        have hubal : 0 ≤ user.balance :=
          ((nonnegState_iff _).mp hdel).1 user (List.mem_of_find?_eq_some hu)
        have h1 := nonnegState_updateUserBalance (db.deleteBet eb.id) uid
          (user.balance + eb.amount) hdel (by omega)
        have h2 := nonnegState_incrementUserStats _ uid .total_bets (-1) h1
        exact nonnegState_placeBetChecked _ uid lid o h2

/-- The tail of `handleReactionAdded` preserves non-negativity. -/
theorem nonnegState_addTail (db1 : DB) (uidd lid opt : String)
    (h1 : nonnegState db1 = true) :
    nonnegState ((match placeBet db1 uidd lid opt with
      | (db2, Except.ok _bet) => (db2, AddOutcome.confirmed opt)
      | (db2, Except.error msg) => (db2, AddOutcome.betError msg)).1) = true := by
  have h2 := nonnegState_placeBet db1 uidd lid opt h1
  rcases hp : placeBet db1 uidd lid opt with ⟨db2, res⟩
  rw [hp] at h2
  cases res <;> exact h2

theorem nonnegState_reactionAdded (db : DB) (l su un r : String)
    (h : nonnegState db = true) :
    nonnegState (handleReactionAdded db l su un r).1 = true := by
  cases hline : db.getBettingLine l with
  | none =>
    simp only [handleReactionAdded, hline]
    exact h
  | some line =>
    cases hst : (line.status != LineStatus.open) with
    | true =>
      simp only [handleReactionAdded, hline, hst, if_true, ite_true]
      exact h
    | false =>
      simp only [handleReactionAdded, hline, hst, Bool.false_eq_true, if_false,
        ite_false]
      cases hidx : line.emojis.findIdx? (fun e => e == reactionToEmoji r) with
      | none =>
        simp only [hidx]
        exact h
      | some idx =>
        simp only [hidx]
        cases hopt : line.options.get? idx with
        | none =>
          simp only [hopt]
          exact h
        | some opt =>
          simp only [hopt]
          show nonnegState ((match placeBet (ensureUser db su un).1
              (ensureUser db su un).2.id line.id opt with
            | (db2, Except.ok _bet) => (db2, AddOutcome.confirmed opt)
            | (db2, Except.error msg) => (db2, AddOutcome.betError msg)).1) = true
          exact nonnegState_addTail _ _ _ _ (nonnegState_ensureUser db su un h)

theorem nonnegState_reactionRemoved (db : DB) (l su r : String)
    (h : nonnegState db = true) :
    nonnegState (handleReactionRemoved db l su r).1 = true := by
  cases hline : db.getBettingLine l with
  | none =>
    simp only [handleReactionRemoved, hline]
    exact h
  | some line =>
    cases hst : (line.status != LineStatus.open) with
    | true =>
      simp only [handleReactionRemoved, hline, hst, if_true, ite_true]
      exact h
    | false =>
      simp only [handleReactionRemoved, hline, hst, Bool.false_eq_true, if_false,
        ite_false]
      cases hu : db.getUserBySlackId su with
      | none =>
        simp only [hu]
        exact h
      | some dbUser =>
        simp only [hu]
        cases hb : db.getUserBetOnLine dbUser.id l with
        | none =>
          simp only [hb]
          exact h
        | some userBet =>
          simp only [hb]
          cases hidx : line.emojis.findIdx? (fun e => e == reactionToEmoji r) with
          | none =>
            simp only [hidx]
            exact h
          | some idx =>
            simp only [hidx]
            cases hopt : line.options.get? idx with
            | none =>
              simp only [hopt]
              exact h
            | some opt =>
              simp only [hopt]
              cases hne : (userBet.option != opt) with
              | true =>
                simp only [hne, if_true, ite_true]
                exact h
              | false =>
                simp only [hne, Bool.false_eq_true, if_false, ite_false]
                have h0 := (nonnegState_iff db).mp h
                have hub : 0 ≤ dbUser.balance :=
                  h0.1 dbUser (List.mem_of_find?_eq_some hu)
                have hba : 0 ≤ userBet.amount :=
                  h0.2 userBet (List.mem_of_find?_eq_some hb)
                have hdel := nonnegState_deleteBet db userBet.id h
                have h1 := nonnegState_updateUserBalance (db.deleteBet userBet.id)
                  dbUser.id (dbUser.balance + userBet.amount) hdel (by omega)
                exact nonnegState_incrementUserStats _ dbUser.id .total_bets (-1) h1

/-- All rows of the `getBetsForLine` join carry amounts of stored bets,
hence non-negative amounts in a non-negative store. -/
theorem rows_amount_nonneg (db : DB) (l : String)
    (h : nonnegState db = true) :
    ∀ row ∈ db.getBetsForLine l, 0 ≤ row.amount := by
  intro row hrow
  obtain ⟨b, hb, hbeq⟩ := List.mem_filterMap.mp hrow
  cases hgu : db.getUserStats b.user_id with
  | none =>
    rw [hgu] at hbeq
    exact absurd hbeq (by simp)
  | some u2 =>
    rw [hgu] at hbeq
    simp only [Option.map_some'] at hbeq
    have hrec := Option.some.inj hbeq
    rw [← hrec]
    exact ((nonnegState_iff db).mp h).2 b (List.mem_filter.mp hb).1

/-- Every payout entry computed for a non-negative store is
non-negative: the per-winner amount is a floor of a non-negative pot. -/
theorem payouts_nonneg (db : DB) (l w : String) (pd : PayoutData)
    (h : nonnegState db = true)
    (hc : calculatePayouts db l w = .ok pd) :
    ∀ p ∈ pd.payouts, 0 ≤ p.payout := by
  have hrows := rows_amount_nonneg db l h
  have hpot : 0 ≤ (losingBetsOf (db.getBetsForLine l) w).foldl
      (fun sum bet => sum + bet.amount) 0 := by
    rw [losing_foldl_eq_filter_sum]
    apply List.sum_nonneg
    intro x hx
    obtain ⟨b, hbmem, rfl⟩ := List.mem_map.mp hx
    exact hrows b (List.mem_filter.mp hbmem).1
  cases hline : db.getBettingLine l with
  | none =>
    rw [calculatePayouts, hline] at hc
    exact absurd hc (by simp)
  | some line =>
    cases hwz : ((betsWithOption (db.getBetsForLine l) w).length == 0) with
    | true =>
      simp only [calculatePayouts, hline, hwz, if_true, ite_true] at hc
      obtain rfl := Except.ok.inj hc
      intro p hp
      exact absurd hp (by simp)
    | false =>
      cases hlz : ((losingBetsOf (db.getBetsForLine l) w).length == 0) with
      | true =>
        simp only [calculatePayouts, hline, hwz, hlz, Bool.false_eq_true,
          if_false, ite_false, if_true, ite_true] at hc
        obtain rfl := Except.ok.inj hc
        intro p hp
        obtain ⟨bet, hbmem, rfl⟩ := List.mem_map.mp hp
        exact le_refl 0
      | false =>
        simp only [calculatePayouts, hline, hwz, hlz, Bool.false_eq_true,
          if_false, ite_false] at hc
        obtain rfl := Except.ok.inj hc
        intro p hp
        obtain ⟨bet, hbmem, rfl⟩ := List.mem_map.mp hp
        exact Int.fdiv_nonneg hpot (by exact_mod_cast Nat.zero_le _)

theorem nonnegState_creditWinner (db : DB) (p : PayoutEntry)
    (h : nonnegState db = true) (hp : 0 ≤ p.payout) :
    nonnegState (creditWinner db p) = true := by
  cases hu : db.getUserStats p.userId with
  | none =>
    simp only [creditWinner, hu]
    exact h
  | some user =>
    simp only [creditWinner, hu]
    have hub : 0 ≤ user.balance :=
      ((nonnegState_iff db).mp h).1 user (List.mem_of_find?_eq_some hu)
    exact nonnegState_incrementUserStats _ p.userId .total_winnings p.payout
      (nonnegState_updateUserBalance db p.userId (user.balance + p.payout) h
        (by omega))

theorem nonnegState_foldl_creditWinner (ps : List PayoutEntry) (db : DB)
    (h : nonnegState db = true) (hp : ∀ p ∈ ps, 0 ≤ p.payout) :
    nonnegState (ps.foldl creditWinner db) = true := by
  induction ps generalizing db with
  | nil => exact h
  | cons p t ih =>
    rw [List.foldl_cons]
    exact ih _ (nonnegState_creditWinner db p h (hp p (List.mem_cons_self p t)))
      (fun q hq => hp q (List.mem_cons_of_mem p hq))

theorem nonnegState_debitLoser (db : DB) (bet : BetRow)
    (h : nonnegState db = true) :
    nonnegState (debitLoser db bet) = true := by
  cases hu : db.getUserStats bet.user_id with
  | none =>
    simp only [debitLoser, hu]
    exact h
  | some user =>
    simp only [debitLoser, hu]
    exact nonnegState_updateUserBalance db bet.user_id _ h (le_max_left 0 _)

theorem nonnegState_foldl_debitLoser (bs : List BetRow) (db : DB)
    (h : nonnegState db = true) :
    nonnegState (bs.foldl debitLoser db) = true := by
  induction bs generalizing db with
  | nil => exact h
  | cons b t ih =>
    rw [List.foldl_cons]
    exact ih _ (nonnegState_debitLoser db b h)

theorem nonnegState_processPayouts (db : DB) (l w : String)
    (h : nonnegState db = true) :
    nonnegState (processPayouts db l w).1 = true := by
  cases hc : calculatePayouts db l w with
  | error e =>
    simp only [processPayouts, hc]
    exact h
  | ok pd =>
    simp only [processPayouts, hc]
    have hps := payouts_nonneg db l w pd h hc
    have h1 := nonnegState_foldl_creditWinner pd.payouts db h hps
    exact nonnegState_foldl_debitLoser _ _ h1

theorem nonnegState_handleResolveLine (db : DB) (l w : String)
    (h : nonnegState db = true) :
    nonnegState (handleResolveLine db l w).1 = true := by
  cases hline : db.getBettingLine l with
  | none =>
    simp only [handleResolveLine, hline]
    exact h
  | some line =>
    cases hin : (!(line.options.contains w)) with
    | true =>
      simp only [handleResolveLine, hline, hin, if_true, ite_true]
      exact h
    | false =>
      simp only [handleResolveLine, hline, hin, Bool.false_eq_true, if_false,
        ite_false]
      have h1 := nonnegState_processPayouts db l w h
      rcases hp : processPayouts db l w with ⟨db1, res⟩
      rw [hp] at h1
      cases res with
      | error msg => exact h1
      | ok pd => exact h1

theorem nonnegState_handleLockLine (db : DB) (l : String)
    (h : nonnegState db = true) :
    nonnegState (handleLockLine db l).1 = true := by
  cases hline : db.getBettingLine l with
  | none =>
    simp only [handleLockLine, hline]
    exact h
  | some line =>
    cases hst : (line.status != LineStatus.open) with
    | true =>
      simp only [handleLockLine, hline, hst, if_true, ite_true]
      exact h
    | false =>
      simp only [handleLockLine, hline, hst, Bool.false_eq_true, if_false,
        ite_false]
      exact h

/-- C7: every member balance stays ≥ 0 across every sequence of external
events — every balance-mutating operation (stake debit, withdrawal
refund, stake-switch refund, winner credit, and the loser debit at
resolution, which clamps at 0 via `max`) preserves non-negativity of
every balance (and of every stake amount). -/
theorem nonnegState_run (db : DB) (events : List Event)
    (h : nonnegState db = true) : nonnegState (run db events) = true := by
  induction events generalizing db with
  | nil => exact h
  | cons e t ih =>
    apply ih
    cases e with
    | reactionAdded l su un r => exact nonnegState_reactionAdded db l su un r h
    | reactionRemoved l su r => exact nonnegState_reactionRemoved db l su r h
    | lockLine l => exact nonnegState_handleLockLine db l h
    | resolveLine l w => exact nonnegState_handleResolveLine db l w h

/-- Witness for the C7 theorem: the staked scenario store is
non-negative, and stays so after a switch, a removal, and a resolve. -/
theorem nonnegState_run_witness :
    nonnegState demoStakedDB = true ∧
    nonnegState (run demoStakedDB
      [.reactionAdded "line-0" "slack-m3" "M3" "chart_with_downwards_trend",
       .reactionRemoved "line-0" "slack-m1" "chart_with_upwards_trend",
       .resolveLine "line-0" "over"]) = true :=
  ⟨by decide,
    nonnegState_run demoStakedDB
      [.reactionAdded "line-0" "slack-m3" "M3" "chart_with_downwards_trend",
       .reactionRemoved "line-0" "slack-m1" "chart_with_upwards_trend",
       .resolveLine "line-0" "over"] (by decide)⟩

end Betting
